import Mathlib

/-!
Room presence and message broadcast of the chat server.

A shallow embedding of `src/server/socket/handlers.js`, `src/server/models/Room.js`,
`src/server/models/Message.js`, the message route of `src/server/routes/rooms.js`, the
outbound queue and `connect` handling of `src/public/assets/js/socket-client.js`, the
message history and server-event handlers of `src/public/assets/js/chat.js`,
`UI.handleTyping` of `src/public/assets/js/ui.js` and `Utils.truncateText` of
`src/public/assets/js/utils.js`.

Modelling conventions.

* A JavaScript `Map` is an association list in insertion order, a `Set` a list without
  repetition in insertion order.
* Every event handler runs to completion before the next event is handled (one event at a
  time); the `await`s inside a handler are sequential steps of that handler.
* What the handler cannot determine is read from an `Env`: the value of each `new Date()`,
  the fresh uuid, the database clock, and how many database queries succeed before the
  first one that throws.
* The socket.io server is modelled at the level of its documented interface: `socket.join`,
  `socket.emit`, `socket.to(room).emit` (room members, the sender excluded),
  `io.to(room).emit` (room members), `io.emit` (all connected sockets); a socket joins the
  room named by its own id on connection and leaves all its rooms before its `disconnect`
  handler runs.
-/

namespace PlusRom

/-! ## JavaScript helpers -/

abbrev SocketId := String
abbrev RoomId := String

/-- White space and line terminators removed by `String.prototype.trim`. -/
def isJsWhiteSpace (c : Char) : Bool :=
  let n := c.toNat
  n == 0x09 || n == 0x0A || n == 0x0B || n == 0x0C || n == 0x0D || n == 0x20 ||
  n == 0xA0 || n == 0x1680 || (0x2000 ≤ n && n ≤ 0x200A) || n == 0x2028 || n == 0x2029 ||
  n == 0x202F || n == 0x205F || n == 0x3000 || n == 0xFEFF

/-- The method `s.trim()`. -/
def jsTrim (s : String) : String :=
  String.mk ((s.data.dropWhile isJsWhiteSpace).reverse.dropWhile isJsWhiteSpace).reverse

/-- Truthiness of a string: every string but the empty one. -/
def truthy (s : String) : Bool := s != ""

/-- The test `!x || x.trim().length === 0` on an optional string payload field
(`none` is a missing field, that is `undefined`). -/
def isBlank : Option String → Bool
  | none => true
  | some s => !truthy s || (jsTrim s).length == 0

/-- A JavaScript `Map` with keys `κ` and values `ν`, in insertion order. -/
abbrev JsMap (κ ν : Type) := List (κ × ν)

namespace JsMap

variable {κ ν : Type} [DecidableEq κ]

/-- The method `map.get(k)`. -/
def get (m : JsMap κ ν) (k : κ) : Option ν :=
  (m.find? (fun p => decide (p.1 = k))).map Prod.snd

/-- The method `map.has(k)`. -/
def has (m : JsMap κ ν) (k : κ) : Bool := (get m k).isSome

/-- The method `map.set(k, v)`: an existing key keeps its position. -/
def set : JsMap κ ν → κ → ν → JsMap κ ν
  | [], k, v => [(k, v)]
  | (k0, v0) :: m, k, v => if k0 = k then (k, v) :: m else (k0, v0) :: set m k v

/-- The method `map.delete(k)`. -/
def delete (m : JsMap κ ν) (k : κ) : JsMap κ ν :=
  m.filter (fun p => !decide (p.1 = k))

end JsMap

/-- The method `set.add(x)` of a JavaScript `Set`. -/
def setAdd (s : List SocketId) (x : SocketId) : List SocketId :=
  if x ∈ s then s else s ++ [x]

/-! ## Storage collaborator -/

/-- A row of table `rooms`. -/
structure RoomRow where
  id : RoomId
  name : String
  description : String
  created_at : Nat
  updated_at : Nat
  deriving DecidableEq, Repr

/-- A row of table `messages`. -/
structure MessageRow where
  id : String
  room_id : RoomId
  username : Option String
  text_content : Option String
  image_url : Option String
  created_at : Nat
  deriving DecidableEq, Repr

/-- The database behind `pool`. -/
structure Db where
  rooms : List RoomRow
  messages : List MessageRow
  deriving DecidableEq, Repr

/-- What a handler reads from its environment. `dbUp` is the number of `pool.query` calls
of the handler that succeed before the first one that throws. -/
structure Env where
  now : Nat → Nat
  uuid : String
  dbNow : Nat
  dbUp : Nat

/-- Whether the `i`-th `pool.query` call of the handler (counted from 0) succeeds. -/
def Env.queryOk (env : Env) (i : Nat) : Bool := decide (i < env.dbUp)

/-- The static method `Room.findById(id)`: `rows[0]` of
`SELECT * FROM rooms WHERE id = $1`, as query number `q` of the handler. -/
def Room.findById (db : Db) (env : Env) (q : Nat) (id : RoomId) :
    Except String (Option RoomRow) :=
  if env.queryOk q then .ok (db.rooms.find? (fun r => decide (r.id = id)))
  else .error "query failed"

/-- The static method `Message.create(roomId, username, textContent, imageUrl)`: the insert
is query `q`, the update of the room timestamp query `q + 1`; the two are not in one
transaction. Returns the inserted row and the database afterwards; on failure the database
afterwards. -/
def Message.create (db : Db) (env : Env) (q : Nat) (roomId : RoomId)
    (username : Option String) (textContent : Option String) (imageUrl : Option String) :
    Except Db (MessageRow × Db) :=
  if env.queryOk q then
    let row : MessageRow :=
      { id := env.uuid, room_id := roomId, username := username,
        text_content := textContent, image_url := imageUrl, created_at := env.dbNow }
    let db1 : Db := { db with messages := db.messages ++ [row] }
    if env.queryOk (q + 1) then
      let db2 : Db :=
        { db1 with rooms := db1.rooms.map (fun r =>
            if r.id = roomId then { r with updated_at := env.dbNow } else r) }
      .ok (row, db2)
    else .error db1
  else .error db

/-- The rows of `SELECT * FROM messages WHERE room_id = $1 ORDER BY created_at DESC`
(rows with equal `created_at` keep their table order). -/
def selectByRoomDesc (db : Db) (roomId : RoomId) : List MessageRow :=
  (db.messages.filter (fun m => decide (m.room_id = roomId))).insertionSort
    (fun a b => b.created_at ≤ a.created_at)

/-- Whether a number is accepted as `LIMIT` or `OFFSET` of a query: the database takes them
as `bigint` and rejects a negative value, so a value below 0 or from 2^63 on makes the
query throw. -/
def validLimit (n : Int) : Bool := decide (0 ≤ n) && decide (n < 2 ^ 63)

/-- The static method `Message.findByRoomId(roomId, limit, offset)`, as query `q`:
`ORDER BY created_at DESC LIMIT $2 OFFSET $3`, then `rows.reverse()`. A limit or offset
that the database does not accept makes the query throw. -/
def Message.findByRoomId (db : Db) (env : Env) (q : Nat) (roomId : RoomId)
    (limit : Int := 50) (offset : Int := 0) : Except String (List MessageRow) :=
  if env.queryOk q && validLimit limit && validLimit offset then
    .ok (((selectByRoomDesc db roomId).drop offset.toNat).take limit.toNat).reverse
  else .error "query failed"

/-- The static method `Message.getRoomMessageCount(roomId)`, as query `q`. -/
def Message.getRoomMessageCount (db : Db) (env : Env) (q : Nat) (roomId : RoomId) :
    Except String Nat :=
  if env.queryOk q then
    .ok (db.messages.filter (fun m => decide (m.room_id = roomId))).length
  else .error "query failed"

/-! ## The socket.io server -/

/-- The socket.io server `io`: the connected sockets and `io.sockets.adapter.rooms`. -/
structure SocketServer where
  sockets : List SocketId
  rooms : JsMap String (List SocketId)
  deriving DecidableEq, Repr

namespace SocketServer

/-- The member sockets of a room (none when the room does not exist). -/
def members (io : SocketServer) (room : String) : List SocketId :=
  (io.rooms.get room).getD []

/-- The call `socket.join(room)` for socket `c`: the room is created when absent. -/
def join (io : SocketServer) (c : SocketId) (room : String) : SocketServer :=
  { io with rooms := io.rooms.set room (setAdd (io.members room) c) }

/-- What socket.io does when socket `c` closes, before the `disconnect` handler runs: the
socket leaves every room it is in (a room left empty is deleted) and is no longer
connected. -/
def close (io : SocketServer) (c : SocketId) : SocketServer :=
  { sockets := io.sockets.filter (fun s => !decide (s = c)),
    rooms := io.rooms.filterMap (fun p =>
      if c ∈ p.2 then
        (let rest := p.2.filter (fun s => !decide (s = c))
         if rest.isEmpty then none else some (p.1, rest))
      else some p) }

/-- What socket.io does when socket `c` connects, before the `connection` handler runs. -/
def accept (io : SocketServer) (c : SocketId) : SocketServer :=
  join { io with sockets := setAdd io.sockets c } c c

end SocketServer

/-- An entry of the list returned by `getRoomUsers`. -/
structure RoomUser where
  username : String
  socketId : SocketId
  deriving DecidableEq, Repr

/-- The payloads of the events the handlers emit. -/
inductive Payload
  | error (message : String)
  | userConnected (username : String) (timestamp : Nat)
  | roomJoined (room : RoomRow) (messages : List MessageRow) (users : List RoomUser)
  | userJoinedRoom (username : Option String) (roomId : RoomId) (timestamp : Nat)
  | userList (users : List RoomUser)
  | receiveMessage (message : MessageRow) (timestamp : Nat)
  | typingIndicator (username : Option String) (isTyping : Bool)
  | userLeftRoom (username : String) (timestamp : Nat)
  | userDisconnected (username : String) (timestamp : Nat)
  deriving DecidableEq, Repr

/-- How an emission is addressed. -/
inductive Target
  | socket (c : SocketId)
  | roomExcept (room : String) (c : SocketId)
  | room (room : String)
  | all
  deriving DecidableEq, Repr

/-- One `emit` call: its addressing, event name and payload, and the connections it is
delivered to (resolved against the rooms at the time of the call). -/
structure Emit where
  target : Target
  event : String
  payload : Payload
  recipients : List SocketId
  deriving DecidableEq, Repr

/-- The call `socket.emit(event, payload)` on socket `c`. -/
def socketEmit (c : SocketId) (event : String) (payload : Payload) : Emit :=
  { target := .socket c, event := event, payload := payload, recipients := [c] }

/-- The call `socket.to(room).emit(event, payload)` on socket `c`. -/
def socketToEmit (io : SocketServer) (c : SocketId) (room : String) (event : String)
    (payload : Payload) : Emit :=
  { target := .roomExcept room c, event := event, payload := payload,
    recipients := (io.members room).filter (fun s => !decide (s = c)) }

/-- The call `io.to(room).emit(event, payload)`. -/
def ioToEmit (io : SocketServer) (room : String) (event : String) (payload : Payload) :
    Emit :=
  { target := .room room, event := event, payload := payload,
    recipients := io.members room }

/-- The call `io.emit(event, payload)`. -/
def ioEmit (io : SocketServer) (event : String) (payload : Payload) : Emit :=
  { target := .all, event := event, payload := payload, recipients := io.sockets }

/-! ## Server state and handlers (`handlers.js`) -/

/-- The variable `currentUser` of one connection. -/
structure CurrentUser where
  username : String
  roomId : Option RoomId
  deriving DecidableEq, Repr

/-- The server: the module-level maps `activeUsers` and `userSockets`, the `currentUser`
variable of every connection, the socket.io server and the database. -/
structure Server where
  activeUsers : JsMap SocketId String
  userSockets : JsMap String SocketId
  currentUser : JsMap SocketId CurrentUser
  io : SocketServer
  db : Db
  deriving DecidableEq, Repr

/-- The `currentUser` variable of connection `c` (its initial value when never written). -/
def Server.currentUserOf (st : Server) (c : SocketId) : CurrentUser :=
  (st.currentUser.get c).getD { username := "", roomId := none }

/-- The function `getRoomUsers(io, roomId)`. -/
def getRoomUsers (st : Server) (roomId : RoomId) : List RoomUser :=
  match st.io.rooms.get roomId with
  | none => []
  | some room =>
    room.filterMap (fun socketId =>
      match st.activeUsers.get socketId with
      | some username =>
        if truthy username then some { username := username, socketId := socketId }
        else none
      | none => none)

/-- The `connection` handler: a new socket `c` with `currentUser = { username: '', roomId: null }`. -/
def onConnection (st : Server) (c : SocketId) : Server × List Emit :=
  ({ st with io := st.io.accept c,
             currentUser := st.currentUser.set c { username := "", roomId := none } }, [])

/-- The `connect_user` handler of connection `c`. -/
def onConnectUser (st : Server) (env : Env) (c : SocketId) (username : Option String) :
    Server × List Emit :=
  match username with
  | none => (st, [socketEmit c "error" (.error "Username is required")])
  | some u =>
    if isBlank (some u) then (st, [socketEmit c "error" (.error "Username is required")])
    else
      ({ st with
          currentUser := st.currentUser.set c { st.currentUserOf c with username := u },
          activeUsers := st.activeUsers.set c u,
          userSockets := st.userSockets.set u c },
        [ioEmit st.io "user_connected" (.userConnected u (env.now 0))])

/-- The `join_room` handler of connection `c`. -/
def onJoinRoom (st : Server) (env : Env) (c : SocketId) (roomId : RoomId)
    (username : Option String) : Server × List Emit :=
  match Room.findById st.db env 0 roomId with
  | .error _ => (st, [socketEmit c "error" (.error "Failed to join room")])
  | .ok none => (st, [socketEmit c "error" (.error "Room not found")])
  | .ok (some room) =>
    let st1 : Server :=
      { st with
          io := st.io.join c roomId,
          currentUser := st.currentUser.set c { st.currentUserOf c with roomId := some roomId } }
    match Message.findByRoomId st1.db env 1 roomId with
    | .error _ => (st1, [socketEmit c "error" (.error "Failed to join room")])
    | .ok messages =>
      (st1,
        [ socketEmit c "room_joined" (.roomJoined room messages (getRoomUsers st1 roomId)),
          socketToEmit st1.io c roomId "user_joined_room"
            (.userJoinedRoom username roomId (env.now 0)),
          ioToEmit st1.io roomId "user_list" (.userList (getRoomUsers st1 roomId)) ])

/-- The `send_message` handler of connection `c`. -/
def onSendMessage (st : Server) (env : Env) (c : SocketId) (roomId : RoomId)
    (username : Option String) (text : Option String) : Server × List Emit :=
  if isBlank text then (st, [])
  else
    match Message.create st.db env 0 roomId username text none with
    | .ok (message, db1) =>
      ({ st with db := db1 },
        [ioToEmit st.io roomId "receive_message"
          (.receiveMessage message message.created_at)])
    | .error db1 =>
      ({ st with db := db1 }, [socketEmit c "error" (.error "Failed to send message")])

/-- The `send_image` handler of connection `c`. -/
def onSendImage (st : Server) (env : Env) (c : SocketId) (roomId : RoomId)
    (username : Option String) (imageUrl : Option String) : Server × List Emit :=
  match imageUrl with
  | none => (st, [])
  | some url =>
    if !truthy url then (st, [])
    else
      match Message.create st.db env 0 roomId username none (some url) with
      | .ok (message, db1) =>
        ({ st with db := db1 },
          [ioToEmit st.io roomId "receive_message"
            (.receiveMessage message message.created_at)])
      | .error db1 =>
        ({ st with db := db1 }, [socketEmit c "error" (.error "Failed to send image")])

/-- The `user_typing` handler of connection `c`. -/
def onUserTyping (st : Server) (c : SocketId) (roomId : RoomId) (username : Option String) :
    Server × List Emit :=
  (st, [socketToEmit st.io c roomId "typing_indicator" (.typingIndicator username true)])

/-- The `user_stop_typing` handler of connection `c`. -/
def onUserStopTyping (st : Server) (c : SocketId) (roomId : RoomId)
    (username : Option String) : Server × List Emit :=
  (st, [socketToEmit st.io c roomId "typing_indicator" (.typingIndicator username false)])

/-- The `disconnect` handler of connection `c`, run after socket.io has closed the socket. -/
def onDisconnect (st : Server) (env : Env) (c : SocketId) : Server × List Emit :=
  let st0 : Server := { st with io := st.io.close c }
  match st0.activeUsers.get c with
  | none => (st0, [])
  | some username =>
    if truthy username then
      let st1 : Server :=
        { st0 with
            activeUsers := st0.activeUsers.delete c,
            userSockets := st0.userSockets.delete username }
      let left : List Emit :=
        match (st1.currentUserOf c).roomId with
        | none => []
        | some roomId =>
          if truthy roomId then
            [ socketToEmit st1.io c roomId "user_left_room"
                (.userLeftRoom username (env.now 0)),
              ioToEmit st1.io roomId "user_list" (.userList (getRoomUsers st1 roomId)) ]
          else []
      (st1, left ++ [ioEmit st1.io "user_disconnected"
        (.userDisconnected username (env.now 1))])
    else (st0, [])

/-- The inbound events of the server. -/
inductive Event
  | connection (c : SocketId)
  | connectUser (c : SocketId) (username : Option String)
  | joinRoom (c : SocketId) (roomId : RoomId) (username : Option String)
  | sendMessage (c : SocketId) (roomId : RoomId) (username : Option String)
      (text : Option String)
  | sendImage (c : SocketId) (roomId : RoomId) (username : Option String)
      (imageUrl : Option String)
  | userTyping (c : SocketId) (roomId : RoomId) (username : Option String)
  | userStopTyping (c : SocketId) (roomId : RoomId) (username : Option String)
  | disconnect (c : SocketId)
  deriving DecidableEq, Repr

/-- Handling one inbound event. -/
def step (st : Server) (env : Env) : Event → Server × List Emit
  | .connection c => onConnection st c
  | .connectUser c username => onConnectUser st env c username
  | .joinRoom c roomId username => onJoinRoom st env c roomId username
  | .sendMessage c roomId username text => onSendMessage st env c roomId username text
  | .sendImage c roomId username imageUrl => onSendImage st env c roomId username imageUrl
  | .userTyping c roomId username => onUserTyping st c roomId username
  | .userStopTyping c roomId username => onUserStopTyping st c roomId username
  | .disconnect c => onDisconnect st env c

/-- Handling a sequence of inbound events, one at a time; the emissions in order. -/
def run (st : Server) : List (Env × Event) → Server × List Emit
  | [] => (st, [])
  | (env, ev) :: rest =>
    let r := step st env ev
    let r2 := run r.1 rest
    (r2.1, r.2 ++ r2.2)

/-! ## Message history route (`routes/rooms.js`) -/

/-- The expression `parseInt(x) || d`, given the value of `parseInt(x)`: `none` is `NaN`;
`NaN` and `0` are falsy. Numbers are modelled as unbounded integers. -/
def parsedOr (parsed : Option Int) (d : Int) : Int :=
  match parsed with
  | none => d
  | some n => if n = 0 then d else n

/-- The responses of `GET /api/rooms/:id/messages`. -/
inductive MessagesResponse
  | notFound
  | ok (data : List MessageRow) (limit offset : Int) (total : Nat) (hasMore : Bool)
  | failed
  deriving DecidableEq, Repr

/-- The handler of `GET /api/rooms/:id/messages`, given the values of
`parseInt(req.query.limit)` and `parseInt(req.query.offset)`: status 404 when the room is
not found, status 200 with the page and the pagination record, or `next(error)`. -/
def getRoomMessages (db : Db) (env : Env) (id : RoomId) (limitParsed offsetParsed : Option Int) :
    MessagesResponse :=
  let limit := parsedOr limitParsed 50
  let offset := parsedOr offsetParsed 0
  match Room.findById db env 0 id with
  | .error _ => .failed
  | .ok none => .notFound
  | .ok (some _) =>
    match Message.findByRoomId db env 1 id limit offset with
    | .error _ => .failed
    | .ok messages =>
      match Message.getRoomMessageCount db env 2 id with
      | .error _ => .failed
      | .ok totalCount =>
        .ok messages limit offset totalCount (decide (offset + limit < (totalCount : Int)))

/-! ## Client (`socket-client.js`) -/

/-- An outbound event of the client: the arguments `event`, `data` and `callback` of `emit`
(the data as serialised text; the callback by an identifier, `none` when not given). -/
structure QueueEntry where
  event : String
  data : String
  callback : Option Nat
  deriving DecidableEq, Repr

/-- A listener of the `connect` event of the client socket: the one registered by
`setupSocketHandlers`, or the wrapper registered by `this.once('connect', ...)` in
`connect()`. -/
inductive ConnectListener
  | setup
  | onceWrapper
  deriving DecidableEq, Repr

/-- The socket.io client socket `this.socket`: what has been emitted on the transport, in
order, and the listeners of its `connect` event in registration order. -/
structure ClientSocket where
  sent : List QueueEntry := []
  connectListeners : List ConnectListener := []
  deriving DecidableEq, Repr

/-- The event names that socket.io-client reserves. -/
def reservedEvents : List String :=
  ["connect", "connect_error", "disconnect", "disconnecting", "newListener", "removeListener"]

/-- Whether `socket.emit(event, ...)` of the socket.io client throws: it does for a
reserved event name, and for no other. -/
def socketEmitThrows (event : String) : Bool := reservedEvents.contains event

/-- The fields of class `SocketClient` used by `emit`; `failedCallbacks` records the
callbacks that `emit` has called with `{ error: 'Failed to send event' }`. -/
structure SocketClient where
  socket : Option ClientSocket := none
  connected : Bool := false
  reconnectAttempts : Nat := 0
  messageQueue : List QueueEntry := []
  failedCallbacks : List Nat := []
  deriving DecidableEq, Repr

/-- The method `SocketClient.emit(event, data, callback)`. -/
def SocketClient.emit (self : SocketClient) (event : String) (data : String)
    (callback : Option Nat) : SocketClient :=
  match self.socket with
  | none => self
  | some sock =>
    if !self.connected then
      if !(["connect", "disconnect"].contains event) then
        { self with
            messageQueue :=
              self.messageQueue ++ [{ event := event, data := data, callback := callback }] }
      else self
    else if socketEmitThrows event then
      match callback with
      | some cb => { self with failedCallbacks := self.failedCallbacks ++ [cb] }
      | none => self
    else
      { self with
          socket := some { sock with
            sent := sock.sent ++ [{ event := event, data := data, callback := callback }] } }

/-- The method `SocketClient.processMessageQueue()`. -/
def SocketClient.processMessageQueue (self : SocketClient) : SocketClient :=
  if self.messageQueue.length == 0 then self
  else
    let queue := self.messageQueue
    queue.foldl (fun acc e => acc.emit e.event e.data e.callback)
      { self with messageQueue := [] }

/-- The persisted client state read by the `connect` listener: the values of
`Utils.storage.get('currentRoomId')` and `Utils.storage.get(CONFIG.STORAGE_KEYS.USERNAME)`
(`none` is `null`). -/
structure ClientStorage where
  currentRoomId : Option String := none
  username : Option String := none
  deriving DecidableEq, Repr

/-- A string as JSON text (quotation mark and reverse solidus escaped). -/
def jsonQuote (s : String) : String :=
  let q := String.singleton (Char.ofNat 34)
  let b := String.singleton (Char.ofNat 92)
  q ++ String.join (s.data.map (fun ch =>
    if ch = Char.ofNat 34 then b ++ q
    else if ch = Char.ofNat 92 then b ++ b
    else String.singleton ch)) ++ q

/-- The data `{ roomId, username }` of a `join_room` event, as serialised text. -/
def joinRoomData (roomId username : String) : String :=
  "\x7b" ++ jsonQuote "roomId" ++ ":" ++ jsonQuote roomId ++ "," ++
    jsonQuote "username" ++ ":" ++ jsonQuote username ++ "\x7d"

/-- The `connect` listener registered by `setupSocketHandlers`: mark connected, flush the
queue, then re-join the stored room when a room id and a username are stored. -/
def SocketClient.onSocketConnect (self : SocketClient) (storage : ClientStorage) :
    SocketClient :=
  let self1 : SocketClient :=
    { self with connected := true, reconnectAttempts := 0 }.processMessageQueue
  match storage.currentRoomId, storage.username with
  | some currentRoomId, some username =>
    if truthy currentRoomId && truthy username then
      self1.emit "join_room" (joinRoomData currentRoomId username) none
    else self1
  | _, _ => self1

/-- The wrapper registered by `this.once('connect', ...)` in `connect()`: the callback
(mark connected, flush the queue, resolve), then `this.off('connect', wrapper)`, which
removes the wrapper from the listeners of the socket. -/
def SocketClient.onceConnectWrapper (self : SocketClient) : SocketClient :=
  let self1 : SocketClient :=
    { self with connected := true, reconnectAttempts := 0 }.processMessageQueue
  { self1 with
      socket := self1.socket.map (fun sock =>
        { sock with connectListeners := sock.connectListeners.erase .onceWrapper }) }

/-- Running one listener of the `connect` event. -/
def SocketClient.runConnectListener (self : SocketClient) (storage : ClientStorage) :
    ConnectListener → SocketClient
  | .setup => self.onSocketConnect storage
  | .onceWrapper => self.onceConnectWrapper

/-- The socket fires `connect`: the listeners registered at that moment run in
registration order. -/
def SocketClient.handleConnect (self : SocketClient) (storage : ClientStorage) :
    SocketClient :=
  match self.socket with
  | none => self
  | some sock =>
    sock.connectListeners.foldl (fun acc l => acc.runConnectListener storage l) self

/-- The method `SocketClient.connect()` up to the registration of its listeners: a new
socket with the `connect` listener of `setupSocketHandlers` and then the `once` wrapper. -/
def SocketClient.connect (self : SocketClient) : SocketClient :=
  { self with
      socket := some { sent := [], connectListeners := [.setup, .onceWrapper] } }

/-! ## Chat page (`chat.js`) -/

/-- The object `messagePagination` of the chat page. -/
structure Pagination where
  limit : Int := 50
  offset : Int := 0
  hasMore : Bool := true
  deriving DecidableEq, Repr

/-- A value of the map `onlineUsers`: `{ username, status: 'online' }` when added by
`addOnlineUser`, the `{ username, socketId }` entry of a `user_list` event otherwise. -/
structure OnlineUser where
  username : Option String
  socketId : Option SocketId
  status : Option String
  deriving DecidableEq, Repr

/-- The fields of class `ChatApp` used by the message history and by the handlers of
server events; `historyRequests` records the history requests issued by `fetch`, in order
(room id, limit, offset). -/
structure ChatApp where
  username : Option String := none
  messages : List MessageRow := []
  onlineUsers : JsMap (Option String) OnlineUser := []
  typingUsers : List (Option String) := []
  messagePagination : Pagination := { }
  historyRequests : List (RoomId × Int × Int) := []
  deriving DecidableEq, Repr

/-- The answer of the server to `GET /api/rooms/:id/messages?limit=..&offset=..` as sent
by the chat page: the query values are the decimal texts of the two numbers. -/
def serverFetch (db : Db) (env : Env) (roomId : RoomId) (limit offset : Int) :
    MessagesResponse :=
  getRoomMessages db env roomId (some limit) (some offset)

/-- The method `ChatApp.loadRoomMessages(roomId, reset)`, given how `fetch` answers a
request (room id, limit, offset). A response that is not ok, or a rejected fetch, ends in
the catch block, which only notifies. -/
def ChatApp.loadRoomMessages (self : ChatApp)
    (fetch : RoomId → Int → Int → MessagesResponse) (roomId : RoomId)
    (reset : Bool := true) : ChatApp :=
  let self1 : ChatApp :=
    if reset then
      { self with messages := [], messagePagination := { limit := 50, offset := 0,
                                                          hasMore := true } }
    else self
  let self2 : ChatApp :=
    { self1 with
        historyRequests := self1.historyRequests ++
          [(roomId, self1.messagePagination.limit, self1.messagePagination.offset)] }
  match fetch roomId self1.messagePagination.limit self1.messagePagination.offset with
  | .ok data _ _ _ hasMore =>
    { self2 with
        messages := self2.messages ++ data,
        messagePagination :=
          { self2.messagePagination with
              hasMore := hasMore, offset := ((self2.messages ++ data).length : Int) } }
  | .notFound => self2
  | .failed => self2

/-- The method `ChatApp.addMessage(message)`. -/
def ChatApp.addMessage (self : ChatApp) (message : MessageRow) : ChatApp :=
  { self with messages := self.messages ++ [message] }

/-- The method `ChatApp.addOnlineUser(username)`. -/
def ChatApp.addOnlineUser (self : ChatApp) (username : Option String) : ChatApp :=
  if username ≠ self.username then
    { self with
        onlineUsers := self.onlineUsers.set username
          { username := username, socketId := none, status := some "online" } }
  else self

/-- The method `ChatApp.removeOnlineUser(username)`. -/
def ChatApp.removeOnlineUser (self : ChatApp) (username : Option String) : ChatApp :=
  { self with onlineUsers := self.onlineUsers.delete username }

/-- The method `ChatApp.updateOnlineUsers(users)`. -/
def ChatApp.updateOnlineUsers (self : ChatApp) (users : List RoomUser) : ChatApp :=
  users.foldl
    (fun acc user =>
      if some user.username ≠ acc.username then
        { acc with
            onlineUsers := acc.onlineUsers.set (some user.username)
              { username := some user.username, socketId := some user.socketId,
                status := none } }
      else acc)
    { self with onlineUsers := [] }

/-- The `typing_indicator` handler of the chat page: `typingUsers.add(data.username)` or
`typingUsers.delete(data.username)`. -/
def ChatApp.onTypingIndicator (self : ChatApp) (username : Option String) (isTyping : Bool) :
    ChatApp :=
  if isTyping then
    { self with
        typingUsers :=
          if username ∈ self.typingUsers then self.typingUsers
          else self.typingUsers ++ [username] }
  else
    { self with typingUsers := self.typingUsers.filter (fun u => !decide (u = username)) }

/-- The handlers that `registerSocketHandlers` registers for the events of the server
(`room_joined` has no handler; `error` only notifies; `user_connected` and
`user_disconnected` are only logged by the socket client). -/
def ChatApp.handleServerEvent (self : ChatApp) : Payload → ChatApp
  | .receiveMessage message _ => self.addMessage message
  | .userJoinedRoom username _ _ => self.addOnlineUser username
  | .userLeftRoom username _ => self.removeOnlineUser (some username)
  | .userList users => self.updateOnlineUsers users
  | .typingIndicator username isTyping => self.onTypingIndicator username isTyping
  | .error _ => self
  | .userConnected _ _ => self
  | .userDisconnected _ _ => self
  | .roomJoined _ _ _ => self

/-- The chat page of connection `d` handling, in order, the emissions delivered to `d`. -/
def ChatApp.receive (self : ChatApp) (d : SocketId) (emits : List Emit) : ChatApp :=
  emits.foldl (fun acc e => if d ∈ e.recipients then acc.handleServerEvent e.payload else acc)
    self

/-! ## Typing timer (`ui.js`) and text helper (`utils.js`) -/

/-- The constant `CONFIG.UI.TYPING_TIMEOUT`, in milliseconds. -/
def TYPING_TIMEOUT : Nat := 1000

/-- The typing state of class `UI` with the timers of the page: `typingTimer` is the id
returned by the last `setTimeout` (`none` is `null`), `timers` the pending timeouts set by
`handleTyping` as (id, time at which it expires), `now` the current time in milliseconds,
`dispatched` the custom events dispatched on `document`, in order. -/
structure UI where
  typingTimer : Option Nat := none
  timers : List (Nat × Nat) := []
  nextTimerId : Nat := 1
  now : Nat := 0
  dispatched : List String := []
  deriving DecidableEq, Repr

/-- The method `UI.handleTyping()`. -/
def UI.handleTyping (self : UI) : UI :=
  let timers1 : List (Nat × Nat) :=
    match self.typingTimer with
    | some id => self.timers.filter (fun t => !decide (t.1 = id))
    | none => self.timers
  { self with
      dispatched := self.dispatched ++ ["userTyping"],
      typingTimer := some self.nextTimerId,
      timers := timers1 ++ [(self.nextTimerId, self.now + TYPING_TIMEOUT)],
      nextTimerId := self.nextTimerId + 1 }

/-- Time passes until `t`: every pending timeout that expires at or before `t` runs its
callback, which dispatches `userStopTyping`. -/
def UI.advance (self : UI) (t : Nat) : UI :=
  { self with
      dispatched := self.dispatched ++
        (self.timers.filter (fun x => decide (x.2 ≤ t))).map (fun _ => "userStopTyping"),
      timers := self.timers.filter (fun x => !decide (x.2 ≤ t)),
      now := max self.now t }

/-- A keystroke in the message input at time `t`: the `input` listener calls
`handleTyping`. -/
def UI.keystroke (self : UI) (t : Nat) : UI :=
  (self.advance t).handleTyping

/-- A burst of keystrokes at the given times. -/
def UI.keystrokes (self : UI) (ts : List Nat) : UI :=
  ts.foldl UI.keystroke self

/-- The static method `Utils.truncateText(text, maxLength)`; `substring(0, n)` takes `n`
as 0 when it is negative. Lengths are counted in characters. -/
def Utils.truncateText (text : String) (maxLength : Int := 50) : String :=
  if !truthy text then ""
  else if (text.length : Int) ≤ maxLength then text
  else String.mk (text.data.take (maxLength - 3).toNat) ++ "..."

/-! ## Specification-side notions -/

/-- The chat rooms (rooms of the storage) connection `c` is a member of. -/
def chatRoomsOf (st : Server) (c : SocketId) : List RoomId :=
  (st.db.rooms.map (fun r => r.id)).filter (fun r => decide (c ∈ st.io.members r))

/-- The `join_room` events of connection `c` for a list of requests
(environment, room id, username field). -/
def joinEvents (c : SocketId) (reqs : List (Env × RoomId × Option String)) :
    List (Env × Event) :=
  reqs.map (fun r => (r.1, Event.joinRoom c r.2.1 r.2.2))

/-- A server with rooms `A` and `B` in storage and no connection yet. -/
def demoServer : Server :=
  { activeUsers := [], userSockets := [], currentUser := [],
    io := { sockets := [], rooms := [] },
    db := { rooms := [ { id := "A", name := "a", description := "", created_at := 0,
                         updated_at := 0 },
                       { id := "B", name := "b", description := "", created_at := 0,
                         updated_at := 0 } ],
            messages := [] } }

/-- An environment in which every query succeeds. -/
def demoEnv : Env := { now := fun _ => 7, uuid := "m1", dbNow := 5, dbUp := 10 }

/-- The server after connections `c1` (identified as ann) and `c2` (identified as bob) have
both joined room `A`. -/
def demoInA : Server :=
  (run demoServer
    [ (demoEnv, .connection "c1"), (demoEnv, .connectUser "c1" (some "ann")),
      (demoEnv, .connection "c2"), (demoEnv, .connectUser "c2" (some "bob")),
      (demoEnv, .joinRoom "c1" "A" (some "ann")),
      (demoEnv, .joinRoom "c2" "A" (some "bob")) ]).1

/-- The identity of connection `s` in the registry: its entry of `activeUsers`, when that
is a non-empty string. -/
def identityOf (st : Server) (s : SocketId) : Option String :=
  (st.activeUsers.get s).filter truthy

/-- The `disconnect` events of a list of connections. -/
def disconnectEvents (cs : List (Env × SocketId)) : List (Env × Event) :=
  cs.map (fun r => (r.1, Event.disconnect r.2))

/-- The server after connections `c1` and `c3`, both identified as ann, and `c2`, identified
as bob, have joined room `A`. -/
def demoTwoAnns : Server :=
  (run demoServer
    [ (demoEnv, .connection "c1"), (demoEnv, .connectUser "c1" (some "ann")),
      (demoEnv, .connection "c2"), (demoEnv, .connectUser "c2" (some "bob")),
      (demoEnv, .connection "c3"), (demoEnv, .connectUser "c3" (some "ann")),
      (demoEnv, .joinRoom "c1" "A" (some "ann")),
      (demoEnv, .joinRoom "c2" "A" (some "bob")),
      (demoEnv, .joinRoom "c3" "A" (some "ann")) ]).1

/-- A string that is empty or consists of white space only. -/
def whitespaceOnly (s : String) : Bool := s.data.all isJsWhiteSpace

/-- A text field that is missing, empty or whitespace-only. -/
def missingOrBlank : Option String → Bool
  | none => true
  | some s => whitespaceOnly s

/-- Whether an emission is a broadcast (addressed to a room or to all connections) rather
than a reply to one connection. -/
def Target.isBroadcast : Target → Bool
  | .socket _ => false
  | .roomExcept _ _ => true
  | .room _ => true
  | .all => true

/-- A database with room `A` holding 75 messages, created at times 0 to 74. -/
def demoDb75 : Db :=
  { rooms := [ { id := "A", name := "a", description := "", created_at := 0,
                 updated_at := 0 } ],
    messages := (List.range 75).map (fun i =>
      { id := String.mk (List.replicate i 'm'), room_id := "A", username := some "ann",
        text_content := some "hi", image_url := none, created_at := i }) }

/-- A disconnected client with a socket and one queued event. -/
def demoClient : SocketClient :=
  { socket := some { sent := [{ event := "join_room", data := "A", callback := none }] },
    connected := false,
    messageQueue := [{ event := "user_typing", data := "A", callback := none }] }

/-- The `join_room` events the `connect` listener emits for the persisted state: one when
a non-empty room id and a non-empty username are stored, none otherwise. -/
def rejoinEntries (storage : ClientStorage) : List QueueEntry :=
  match storage.currentRoomId, storage.username with
  | some currentRoomId, some username =>
    if truthy currentRoomId && truthy username then
      [{ event := "join_room", data := joinRoomData currentRoomId username, callback := none }]
    else []
  | _, _ => []

/-- What the socket of the client has emitted on the transport (nothing without socket). -/
def SocketClient.sentEvents (self : SocketClient) : List QueueEntry :=
  match self.socket with
  | none => []
  | some sock => sock.sent

/-- A client that called `connect()` and, before the socket connected, queued a
`send_message` event. -/
def demoConnecting : SocketClient :=
  (({ } : SocketClient).connect).emit "send_message" "hello" none

/-- A client whose socket lost its connection after the first connect (only the listener
of `setupSocketHandlers` is left) and which then queued a `send_message` event. -/
def demoReconnecting : SocketClient :=
  { socket := some { sent := [], connectListeners := [.setup] },
    connected := false,
    messageQueue := [{ event := "send_message", data := "hello", callback := none }] }

/-- A client like `demoReconnecting` whose queued event is a `join_room` for room A. -/
def demoQueuedJoin : SocketClient :=
  { socket := some { sent := [], connectListeners := [.setup] },
    connected := false,
    messageQueue := [{ event := "join_room", data := joinRoomData "A" "ann",
                       callback := none }] }

/-- Persisted client state with room A and username ann. -/
def demoStorage : ClientStorage := { currentRoomId := some "A", username := some "ann" }

/-- The server after bob (connection `c2`) has joined room `A` and connection `c9` has
joined room `A` without ever sending `connect_user`. -/
def demoAnonInA : Server :=
  (run demoServer
    [ (demoEnv, .connection "c2"), (demoEnv, .connectUser "c2" (some "bob")),
      (demoEnv, .joinRoom "c2" "A" (some "bob")),
      (demoEnv, .connection "c9"),
      (demoEnv, .joinRoom "c9" "A" none) ]).1

/-- An environment in which every query throws. -/
def demoEnvDown : Env := { now := fun _ => 7, uuid := "m1", dbNow := 5, dbUp := 0 }

/-- The server `demoInA` after a further connection `c5` has connected; `c5` has joined no
chat room. -/
def demoOutsider : Server :=
  (run demoInA [(demoEnv, .connection "c5")]).1

/-- Whether exactly one of text content and image URL of a message is set. -/
def exactlyOneSet (m : MessageRow) : Bool :=
  (m.text_content.isSome && m.image_url.isNone) ||
    (m.text_content.isNone && m.image_url.isSome)

/-- The chat page of bob (connection `c2`) on which ann is shown as typing. -/
def demoBobPage : ChatApp :=
  { username := some "bob", typingUsers := [some "ann"] }

/-- A chat page whose pagination says that there is no more history, with no message
held. -/
def demoNoMore : ChatApp :=
  { username := some "ann", messagePagination := { limit := 50, offset := 0, hasMore := false } }

/-- The chat page after the first page of room A of `demoDb75` has been loaded and then
a backfill page requested. -/
def demoTwoPages : ChatApp :=
  (({ username := some "ann" } : ChatApp).loadRoomMessages
    (serverFetch demoDb75 demoEnv) "A" true).loadRoomMessages
    (serverFetch demoDb75 demoEnv) "A" false

/-- The time of the last keystroke of a burst that starts at `t0` and goes on at `ts`. -/
def lastTime (t0 : Nat) : List Nat → Nat
  | [] => t0
  | b :: rest => lastTime b rest

/-- The entries of a queue that `socket.emit` accepts, in queue order. -/
def sendable (q : List QueueEntry) : List QueueEntry :=
  q.filter (fun e => !socketEmitThrows e.event)

/-- The callbacks of the entries of a queue on which `socket.emit` throws, in queue
order. -/
def rejectedCallbacks (q : List QueueEntry) : List Nat :=
  (q.filter (fun e => socketEmitThrows e.event)).filterMap (fun e => e.callback)

/-- A client that called `connect()` and, before the socket connected, queued a
`connect_error` event with callback 1 and then a `send_message` event. -/
def demoReservedQueued : SocketClient :=
  ((({ } : SocketClient).connect).emit "connect_error" "x" (some 1)).emit
    "send_message" "hello" none

/-! ## Lemmas on maps and rooms -/

section MapLemmas

variable {κ ν : Type} [DecidableEq κ]

theorem JsMap.get_set_self (m : JsMap κ ν) (k : κ) (v : ν) :
    JsMap.get (JsMap.set m k v) k = some v := by
  induction m with
  | nil => simp [JsMap.set, JsMap.get]
  | cons p m ih =>
    obtain ⟨k0, v0⟩ := p
    by_cases h : k0 = k
    · simp [JsMap.set, JsMap.get, h]
    · have ih2 := ih
      simp only [JsMap.get] at ih2
      simp [JsMap.set, JsMap.get, h, ih2]

theorem JsMap.get_set_ne (m : JsMap κ ν) (k k2 : κ) (v : ν) (hne : k2 ≠ k) :
    JsMap.get (JsMap.set m k v) k2 = JsMap.get m k2 := by
  induction m with
  | nil =>
    have h1 : ¬ k = k2 := fun h => hne h.symm
    simp [JsMap.set, JsMap.get, h1]
  | cons p m ih =>
    obtain ⟨k0, v0⟩ := p
    have ih2 := ih
    simp only [JsMap.get] at ih2
    by_cases h : k0 = k
    · subst h
      have h1 : ¬ k0 = k2 := fun h => hne h.symm
      simp [JsMap.set, JsMap.get, h1]
    · by_cases h2 : k0 = k2
      · subst h2
        simp [JsMap.set, JsMap.get, h]
      · simp [JsMap.set, JsMap.get, h, h2, ih2]

theorem JsMap.get_delete_self (m : JsMap κ ν) (k : κ) :
    JsMap.get (JsMap.delete m k) k = none := by
  induction m with
  | nil => simp [JsMap.delete, JsMap.get]
  | cons p m ih =>
    obtain ⟨k0, v0⟩ := p
    have ih2 := ih
    simp only [JsMap.get, JsMap.delete] at ih2
    by_cases h : k0 = k
    · simp [JsMap.delete, JsMap.get, h, List.filter_cons]
    · simp [JsMap.delete, JsMap.get, h, List.filter_cons]

theorem JsMap.get_delete_ne (m : JsMap κ ν) (k k2 : κ) (hne : k2 ≠ k) :
    JsMap.get (JsMap.delete m k) k2 = JsMap.get m k2 := by
  induction m with
  | nil => simp [JsMap.delete, JsMap.get]
  | cons p m ih =>
    obtain ⟨k0, v0⟩ := p
    have ih2 := ih
    simp only [JsMap.get, JsMap.delete] at ih2
    by_cases h : k0 = k
    · subst h
      have h1 : ¬ k0 = k2 := fun h => hne h.symm
      simp [JsMap.delete, JsMap.get, h1, List.filter_cons]
      simpa using ih2
    · by_cases h2 : k0 = k2
      · subst h2
        simp [JsMap.delete, JsMap.get, h, List.filter_cons]
      · simp [JsMap.delete, JsMap.get, h, h2, List.filter_cons]
        simpa using ih2

end MapLemmas

theorem mem_setAdd (s : List SocketId) (x y : SocketId) :
    y ∈ setAdd s x ↔ y ∈ s ∨ y = x := by
  unfold setAdd
  by_cases h : x ∈ s
  · simp only [h, if_true]
    constructor
    · intro hy; exact Or.inl hy
    · rintro (hy | hy)
      · exact hy
      · exact hy ▸ h
  · simp [h]

theorem filter_ne_setAdd (s : List SocketId) (c : SocketId) :
    (setAdd s c).filter (fun x => !decide (x = c)) = s.filter (fun x => !decide (x = c)) := by
  unfold setAdd
  by_cases h : c ∈ s
  · simp [h]
  · simp [h, List.filter_append]

theorem SocketServer.members_join_self (io : SocketServer) (c : SocketId) (room : String) :
    (io.join c room).members room = setAdd (io.members room) c := by
  simp [SocketServer.join, SocketServer.members, JsMap.get_set_self]

theorem SocketServer.members_join_ne (io : SocketServer) (c : SocketId) (room r2 : String)
    (hne : r2 ≠ room) : (io.join c room).members r2 = io.members r2 := by
  simp [SocketServer.join, SocketServer.members, JsMap.get_set_ne _ _ _ _ hne]

theorem SocketServer.mem_members_join (io : SocketServer) (c : SocketId) (room r2 : String)
    (h : c ∈ io.members r2) : c ∈ (io.join c room).members r2 := by
  by_cases hne : r2 = room
  · subst hne
    rw [SocketServer.members_join_self, mem_setAdd]
    exact Or.inl h
  · rw [SocketServer.members_join_ne _ _ _ _ hne]
    exact h

/-! ## Joining rooms -/

theorem onJoinRoom_found (st : Server) (env : Env) (c : SocketId) (roomId : RoomId)
    (username : Option String) (room : RoomRow)
    (hfound : Room.findById st.db env 0 roomId = .ok (some room)) :
    (onJoinRoom st env c roomId username).1 =
      { st with
          io := st.io.join c roomId,
          currentUser :=
            st.currentUser.set c { st.currentUserOf c with roomId := some roomId } } := by
  unfold onJoinRoom
  rw [hfound]
  simp only
  split <;> rfl

theorem run_joinEvents_cons (st : Server) (c : SocketId) (r : Env × RoomId × Option String)
    (rest : List (Env × RoomId × Option String)) :
    (run st (joinEvents c (r :: rest))).1 =
      (run (onJoinRoom st r.1 c r.2.1 r.2.2).1 (joinEvents c rest)).1 := by
  simp [joinEvents, run, step]

/-- C1 (counterexample): after connection c1 has successfully joined room A and then room B,
it is a member of both chat rooms, and still a member of A. -/
theorem C1_member_of_two_rooms :
    chatRoomsOf
        (run demoInA [(demoEnv, Event.joinRoom "c1" "B" (some "ann"))]).1 "c1" = ["A", "B"] ∧
      ¬ (chatRoomsOf
        (run demoInA [(demoEnv, Event.joinRoom "c1" "B" (some "ann"))]).1 "c1").length ≤ 1 ∧
      "c1" ∈ (run demoInA [(demoEnv, Event.joinRoom "c1" "B" (some "ann"))]).1.io.members "A" := by
  decide

/-- C1 (amended): after a sequence of join_room events of one connection, each of which
finds its room, the connection is a member of every room it joined in the sequence and of
every room it was a member of before (no membership is ever removed by join_room), and the
single room recorded in its currentUser.roomId is the room joined last. -/
theorem C1_join_accumulates (st : Server) (c : SocketId)
    (reqs : List (Env × RoomId × Option String))
    (hok : ∀ r ∈ reqs, ∃ room, Room.findById st.db r.1 0 r.2.1 = .ok (some room)) :
    (∀ r ∈ reqs, c ∈ (run st (joinEvents c reqs)).1.io.members r.2.1) ∧
    (∀ room, c ∈ st.io.members room → c ∈ (run st (joinEvents c reqs)).1.io.members room) ∧
    (∀ r ∈ reqs.getLast?,
      ((run st (joinEvents c reqs)).1.currentUserOf c).roomId = some r.2.1) := by
  induction reqs generalizing st with
  | nil => simp [joinEvents, run]
  | cons r rest ih =>
    obtain ⟨room, hroom⟩ := hok r (List.mem_cons_self _ _)
    have hst := onJoinRoom_found st r.1 c r.2.1 r.2.2 room hroom
    have hdb : (onJoinRoom st r.1 c r.2.1 r.2.2).1.db = st.db := by rw [hst]
    have hio : (onJoinRoom st r.1 c r.2.1 r.2.2).1.io = st.io.join c r.2.1 := by rw [hst]
    have hcu : ((onJoinRoom st r.1 c r.2.1 r.2.2).1.currentUserOf c).roomId = some r.2.1 := by
      rw [hst]
      simp [Server.currentUserOf, JsMap.get_set_self]
    have hok2 : ∀ q ∈ rest, ∃ room,
        Room.findById (onJoinRoom st r.1 c r.2.1 r.2.2).1.db q.1 0 q.2.1 = .ok (some room) := by
      intro q hq
      rw [hdb]
      exact hok q (List.mem_cons_of_mem _ hq)
    obtain ⟨ih1, ih2, ih3⟩ := ih (onJoinRoom st r.1 c r.2.1 r.2.2).1 hok2
    rw [run_joinEvents_cons]
    have hself : c ∈ (onJoinRoom st r.1 c r.2.1 r.2.2).1.io.members r.2.1 := by
      rw [hio, SocketServer.members_join_self, mem_setAdd]
      exact Or.inr rfl
    refine ⟨?_, ?_, ?_⟩
    · intro q hq
      rcases List.mem_cons.mp hq with h | h
      · subst h
        exact ih2 _ hself
      · exact ih1 q h
    · intro r2 hr2
      apply ih2
      rw [hio]
      exact SocketServer.mem_members_join _ _ _ _ hr2
    · intro q hq
      cases rest with
      | nil =>
        simp only [List.getLast?_singleton, Option.mem_def, Option.some.injEq] at hq
        subst hq
        simpa [joinEvents, run] using hcu
      | cons r2 rest2 =>
        rw [List.getLast?_cons_cons] at hq
        exact ih3 q hq

/-- C1 (amended), at a concrete input: c1, a member of room A, joins B and then A again. -/
theorem C1_join_accumulates_witness :
    (∀ r ∈ [(demoEnv, "B", some "ann"), (demoEnv, "A", some "ann")],
      ∃ room, Room.findById demoInA.db r.1 0 r.2.1 = .ok (some room)) ∧
    (∀ r ∈ [(demoEnv, "B", some "ann"), (demoEnv, "A", some "ann")],
      "c1" ∈ (run demoInA (joinEvents "c1"
        [(demoEnv, "B", some "ann"), (demoEnv, "A", some "ann")])).1.io.members r.2.1) :=
  have h : ∀ r ∈ [(demoEnv, "B", some "ann"), (demoEnv, "A", some "ann")],
      ∃ room, Room.findById demoInA.db r.1 0 r.2.1 = .ok (some room) := by
    intro r hr
    simp only [List.mem_cons, List.mem_singleton, List.not_mem_nil, or_false] at hr
    rcases hr with h | h <;> subst h
    · exact ⟨_, rfl⟩
    · exact ⟨_, rfl⟩
  ⟨h, (C1_join_accumulates demoInA "c1" _ h).1⟩

/-- C2 (counterexample): c1 and c2 are in room A; when c1 successfully joins room B the
handler emits room_joined, user_joined_room and user_list only: no user_left_room event is
emitted and A's remaining member c2 receives nothing. -/
theorem C2_no_user_left_room :
    demoInA.io.members "A" = ["c1", "c2"] ∧
    (onJoinRoom demoInA demoEnv "c1" "B" (some "ann")).2.map (fun e => e.event) =
      ["room_joined", "user_joined_room", "user_list"] ∧
    (∀ e ∈ (onJoinRoom demoInA demoEnv "c1" "B" (some "ann")).2,
      e.event ≠ "user_left_room" ∧ "c2" ∉ e.recipients) := by
  decide

/-- C2 (amended): when a connection successfully joins an existing room B (the room is found
and the history is read), whatever room it is in, the handler emits exactly three events, in
this order: room_joined to the joining connection, user_joined_room to the members of B
other than the joining connection, and user_list to all members of B, the joining
connection included; none of them is a user_left_room event. -/
theorem C2_join_emits (st : Server) (env : Env) (c : SocketId) (roomId : RoomId)
    (username : Option String) (room : RoomRow) (messages : List MessageRow)
    (hfound : Room.findById st.db env 0 roomId = .ok (some room))
    (hhist : Message.findByRoomId st.db env 1 roomId = .ok messages) :
    (onJoinRoom st env c roomId username).2 =
      [ { target := .socket c, event := "room_joined",
          payload := .roomJoined room messages
            (getRoomUsers (onJoinRoom st env c roomId username).1 roomId),
          recipients := [c] },
        { target := .roomExcept roomId c, event := "user_joined_room",
          payload := .userJoinedRoom username roomId (env.now 0),
          recipients := (st.io.members roomId).filter (fun s => !decide (s = c)) },
        { target := .room roomId, event := "user_list",
          payload := .userList (getRoomUsers (onJoinRoom st env c roomId username).1 roomId),
          recipients := setAdd (st.io.members roomId) c } ] ∧
    (∀ e ∈ (onJoinRoom st env c roomId username).2, e.event ≠ "user_left_room") := by
  have hst := onJoinRoom_found st env c roomId username room hfound
  have hem : (onJoinRoom st env c roomId username).2 =
      [ { target := .socket c, event := "room_joined",
          payload := .roomJoined room messages
            (getRoomUsers (onJoinRoom st env c roomId username).1 roomId),
          recipients := [c] },
        { target := .roomExcept roomId c, event := "user_joined_room",
          payload := .userJoinedRoom username roomId (env.now 0),
          recipients := (st.io.members roomId).filter (fun s => !decide (s = c)) },
        { target := .room roomId, event := "user_list",
          payload := .userList (getRoomUsers (onJoinRoom st env c roomId username).1 roomId),
          recipients := setAdd (st.io.members roomId) c } ] := by
    rw [hst]
    unfold onJoinRoom
    rw [hfound]
    simp only
    rw [hhist]
    simp only [socketEmit, socketToEmit, ioToEmit, SocketServer.members_join_self,
      filter_ne_setAdd]
  refine ⟨hem, ?_⟩
  rw [hem]
  intro e he
  simp only [List.mem_cons, List.mem_singleton, List.not_mem_nil, or_false] at he
  rcases he with h | h | h <;> subst h <;> simp

/-- C2 (amended), at a concrete input: c1, in room A with c2, joins room B. -/
theorem C2_join_emits_witness :
    Room.findById demoInA.db demoEnv 0 "B" =
      .ok (some { id := "B", name := "b", description := "", created_at := 0,
                  updated_at := 0 }) ∧
    Message.findByRoomId demoInA.db demoEnv 1 "B" = .ok [] ∧
    (∀ e ∈ (onJoinRoom demoInA demoEnv "c1" "B" (some "ann")).2,
      e.event ≠ "user_left_room") :=
  ⟨rfl, rfl, (C2_join_emits demoInA demoEnv "c1" "B" (some "ann") _ [] rfl rfl).2⟩

/-! ## Presence -/

theorem getRoomUsers_eq (st : Server) (roomId : RoomId) :
    getRoomUsers st roomId =
      (st.io.members roomId).filterMap (fun s =>
        (identityOf st s).map (fun u => ({ username := u, socketId := s } : RoomUser))) := by
  have hfun : (fun socketId =>
      match st.activeUsers.get socketId with
      | some username =>
        if truthy username then
          some ({ username := username, socketId := socketId } : RoomUser)
        else none
      | none => none) =
      (fun s => (identityOf st s).map
        (fun u => ({ username := u, socketId := s } : RoomUser))) := by
    funext s
    unfold identityOf
    cases h : st.activeUsers.get s with
    | none => simp
    | some u => by_cases ht : truthy u = true <;> simp [Option.filter, ht]
  unfold getRoomUsers SocketServer.members
  cases h : st.io.rooms.get roomId with
  | none => simp
  | some room => simp only [Option.getD_some, hfun]

theorem mem_getRoomUsers (st : Server) (roomId : RoomId) (e : RoomUser) :
    e ∈ getRoomUsers st roomId ↔
      e.socketId ∈ st.io.members roomId ∧ identityOf st e.socketId = some e.username := by
  rw [getRoomUsers_eq, List.mem_filterMap]
  constructor
  · rintro ⟨s, hs, hmap⟩
    cases hid : identityOf st s with
    | none => simp [hid] at hmap
    | some u =>
      simp only [hid, Option.map_some', Option.some.injEq] at hmap
      subst hmap
      exact ⟨hs, hid⟩
  · rintro ⟨hs, hid⟩
    exact ⟨e.socketId, hs, by simp [hid]⟩

theorem identityOf_eq_some (st : Server) (s : SocketId) (u : String) :
    identityOf st s = some u ↔ st.activeUsers.get s = some u ∧ truthy u = true := by
  unfold identityOf
  cases h : st.activeUsers.get s with
  | none => simp
  | some v =>
    by_cases ht : truthy v = true
    · simp only [Option.filter, ht, if_true, Option.some.injEq]
      constructor
      · intro hv; subst hv; exact ⟨rfl, ht⟩
      · intro hv; exact hv.1
    · simp only [Option.filter, ht, Option.some.injEq]
      constructor
      · intro hv; cases hv
      · rintro ⟨hv, hu⟩; subst hv; exact absurd hu ht

/-- C3 (counterexample): two member connections of room A identified with the same username
ann yield two presence entries with username ann, so the usernames of the list repeat. -/
theorem C3_same_username_twice :
    getRoomUsers demoTwoAnns "A" =
      [ { username := "ann", socketId := "c1" }, { username := "bob", socketId := "c2" },
        { username := "ann", socketId := "c3" } ] ∧
    ¬ ((getRoomUsers demoTwoAnns "A").map (fun e => e.username)).Nodup := by
  decide

/-- C3 (amended): for every room and every registry state, getRoomUsers returns one entry
(username, socketId) per member connection of the room that has an identity, in membership
order, without de-duplication by username: a username appears in it iff some member
connection is identified with it, and it appears as many times as there are member
connections identified with it. -/
theorem C3_presence_per_connection (st : Server) (roomId : RoomId) :
    getRoomUsers st roomId =
      (st.io.members roomId).filterMap (fun s =>
        (identityOf st s).map (fun u => ({ username := u, socketId := s } : RoomUser))) ∧
    (∀ u, (∃ e ∈ getRoomUsers st roomId, e.username = u) ↔
      ∃ s ∈ st.io.members roomId, identityOf st s = some u) ∧
    (∀ u, ((getRoomUsers st roomId).filter (fun e => decide (e.username = u))).length =
      ((st.io.members roomId).filter (fun s => decide (identityOf st s = some u))).length) := by
  refine ⟨getRoomUsers_eq st roomId, ?_, ?_⟩
  · intro u
    constructor
    · rintro ⟨e, he, hu⟩
      rw [mem_getRoomUsers] at he
      exact ⟨e.socketId, he.1, hu ▸ he.2⟩
    · rintro ⟨s, hs, hid⟩
      exact ⟨{ username := u, socketId := s }, (mem_getRoomUsers st roomId _).mpr ⟨hs, hid⟩, rfl⟩
  · intro u
    rw [getRoomUsers_eq]
    induction st.io.members roomId with
    | nil => rfl
    | cons s rest ih =>
      cases hid : identityOf st s with
      | none => simp [List.filterMap_cons, List.filter_cons, hid, ih]
      | some v =>
        by_cases hv : v = u
        · simp [List.filterMap_cons, List.filter_cons, hid, hv, ih]
        · simp [List.filterMap_cons, List.filter_cons, hid, hv, ih]

/-! ## Disconnecting -/

theorem onDisconnect_get (st : Server) (env : Env) (c s : SocketId) (u : String)
    (h : (onDisconnect st env c).1.activeUsers.get s = some u) (hu : truthy u = true) :
    st.activeUsers.get s = some u ∧ s ≠ c := by
  unfold onDisconnect at h
  simp only at h
  cases hc : st.activeUsers.get c with
  | none =>
    simp only [hc] at h
    refine ⟨h, ?_⟩
    intro hsc
    subst hsc
    rw [hc] at h
    cases h
  | some v =>
    simp only [hc] at h
    by_cases hv : truthy v = true
    · simp only [hv, if_true] at h
      by_cases hsc : s = c
      · subst hsc
        rw [JsMap.get_delete_self] at h
        cases h
      · rw [JsMap.get_delete_ne _ _ _ hsc] at h
        exact ⟨h, hsc⟩
    · rw [if_neg hv] at h
      refine ⟨h, ?_⟩
      intro hsc
      subst hsc
      rw [hc] at h
      cases h
      exact hv hu

theorem run_disconnect_get (st : Server) (cs : List (Env × SocketId)) (s : SocketId)
    (u : String) (hu : truthy u = true)
    (h : (run st (disconnectEvents cs)).1.activeUsers.get s = some u) :
    st.activeUsers.get s = some u ∧ s ∉ cs.map (fun r => r.2) := by
  induction cs generalizing st with
  | nil => exact ⟨by simpa [disconnectEvents, run] using h, by simp⟩
  | cons r rest ih =>
    have h2 : (run (onDisconnect st r.1 r.2).1 (disconnectEvents rest)).1.activeUsers.get s =
        some u := by
      simpa [disconnectEvents, run, step] using h
    obtain ⟨h3, h4⟩ := ih (onDisconnect st r.1 r.2).1 h2
    obtain ⟨h5, h6⟩ := onDisconnect_get st r.1 r.2 s u h3 hu
    refine ⟨h5, ?_⟩
    simp only [List.map_cons, List.mem_cons, not_or]
    exact ⟨h6, h4⟩

/-- C4: for every username u and every room, once the disconnect handler has run for every
connection identified as u in activeUsers, getRoomUsers of the room contains no entry with
username u. -/
theorem C4_disconnect_clears_presence (st : Server) (u : String) (roomId : RoomId)
    (cs : List (Env × SocketId))
    (hall : ∀ s, st.activeUsers.get s = some u → s ∈ cs.map (fun r => r.2)) :
    ∀ e ∈ getRoomUsers (run st (disconnectEvents cs)).1 roomId, e.username ≠ u := by
  intro e he hu
  rw [mem_getRoomUsers, identityOf_eq_some] at he
  obtain ⟨_, hget, ht⟩ := he
  rw [hu] at hget ht
  obtain ⟨h1, h2⟩ := run_disconnect_get st cs e.socketId u ht hget
  exact h2 (hall _ h1)

/-- C4, at a concrete input: c1 and c3 are the connections identified as ann; after both
disconnect, ann is not in the presence list of room A, where bob remains. -/
theorem C4_disconnect_clears_presence_witness :
    (∀ s, demoTwoAnns.activeUsers.get s = some "ann" →
      s ∈ [(demoEnv, "c1"), (demoEnv, "c3")].map (fun r => r.2)) ∧
    (∀ e ∈ getRoomUsers
        (run demoTwoAnns (disconnectEvents [(demoEnv, "c1"), (demoEnv, "c3")])).1 "A",
      e.username ≠ "ann") ∧
    getRoomUsers (run demoTwoAnns (disconnectEvents [(demoEnv, "c1"), (demoEnv, "c3")])).1 "A" =
      [{ username := "bob", socketId := "c2" }] :=
  have h : ∀ s, demoTwoAnns.activeUsers.get s = some "ann" →
      s ∈ [(demoEnv, "c1"), (demoEnv, "c3")].map (fun r => r.2) := by
    intro s hs
    have hact : demoTwoAnns.activeUsers = [("c1", "ann"), ("c2", "bob"), ("c3", "ann")] := by
      decide
    rw [hact] at hs
    by_cases h1 : s = "c1"
    · simp [h1]
    · by_cases h3 : s = "c3"
      · simp [h3]
      · have h1b : ¬ "c1" = s := fun h => h1 h.symm
        have h3b : ¬ "c3" = s := fun h => h3 h.symm
        by_cases h2 : "c2" = s
        · subst h2
          simp [JsMap.get, List.find?_cons] at hs
        · simp [JsMap.get, List.find?_cons, h1b, h2, h3b] at hs
  ⟨h, C4_disconnect_clears_presence demoTwoAnns "ann" "A" _ h, by decide⟩

/-! ## Sending messages -/

theorem dropWhile_twice_eq_nil (p : Char → Bool) (l : List Char) :
    ((l.dropWhile p).reverse.dropWhile p) = [] ↔ ∀ x ∈ l, p x = true := by
  rw [List.dropWhile_eq_nil_iff]
  constructor
  · intro h
    by_cases hnil : l.dropWhile p = []
    · exact List.dropWhile_eq_nil_iff.mp hnil
    · have hhead := List.head_dropWhile_not p l hnil
      have hmem : (l.dropWhile p).head hnil ∈ (l.dropWhile p).reverse :=
        List.mem_reverse.mpr (List.head_mem hnil)
      rw [h _ hmem] at hhead
      cases hhead
  · intro h x hx
    exact h x ((List.dropWhile_sublist p).subset (List.mem_reverse.mp hx))

theorem isBlank_eq_missingOrBlank (text : Option String) :
    isBlank text = missingOrBlank text := by
  cases text with
  | none => rfl
  | some s =>
    have hlen : ((jsTrim s).length == 0) = whitespaceOnly s := by
      have h1 : (jsTrim s).length =
          ((s.data.dropWhile isJsWhiteSpace).reverse.dropWhile isJsWhiteSpace).reverse.length :=
        rfl
      rw [h1, List.length_reverse]
      by_cases hw : whitespaceOnly s = true
      · rw [hw]
        have h2 := (dropWhile_twice_eq_nil isJsWhiteSpace s.data).mpr
          (List.all_eq_true.mp hw)
        rw [h2]
        rfl
      · have hw2 : whitespaceOnly s = false := by simpa using hw
        rw [hw2]
        have h2 : (s.data.dropWhile isJsWhiteSpace).reverse.dropWhile isJsWhiteSpace ≠ [] := by
          intro h
          exact hw (List.all_eq_true.mpr ((dropWhile_twice_eq_nil isJsWhiteSpace s.data).mp h))
        have h3 : ((s.data.dropWhile isJsWhiteSpace).reverse.dropWhile isJsWhiteSpace).length ≠
            0 := fun h => h2 (List.length_eq_zero.mp h)
        simpa using h3
    show (!truthy s || (jsTrim s).length == 0) = whitespaceOnly s
    rw [hlen]
    by_cases ht : truthy s = true
    · simp [ht]
    · have hs : s = "" := by
        unfold truthy at ht
        simpa using ht
      subst hs
      rfl

/-- C5: a send_message event whose text is not empty or whitespace-only and whose
persistence succeeds emits exactly one event, receive_message, addressed to room roomId
without excluding anyone: it is delivered to all members of the room, the sender included
when it is a member; its payload is the persisted record, whose text content is the text,
together with timestamp equal to the creation time of the record. -/
theorem C5_send_message_broadcast (st : Server) (env : Env) (c : SocketId) (roomId : RoomId)
    (username : Option String) (text : String) (message : MessageRow) (db1 : Db)
    (htext : whitespaceOnly text = false)
    (hcreate : Message.create st.db env 0 roomId username (some text) none = .ok (message, db1)) :
    (onSendMessage st env c roomId username (some text)).2 =
      [ { target := .room roomId, event := "receive_message",
          payload := .receiveMessage message message.created_at,
          recipients := st.io.members roomId } ] ∧
    (c ∈ st.io.members roomId →
      ∀ e ∈ (onSendMessage st env c roomId username (some text)).2, c ∈ e.recipients) ∧
    message ∈ (onSendMessage st env c roomId username (some text)).1.db.messages ∧
    message.text_content = some text ∧ message.room_id = roomId ∧
    message.username = username := by
  have hblank : isBlank (some text) = false := by
    rw [isBlank_eq_missingOrBlank]
    exact htext
  have hrun : onSendMessage st env c roomId username (some text) =
      ({ st with db := db1 },
        [ioToEmit st.io roomId "receive_message"
          (.receiveMessage message message.created_at)]) := by
    unfold onSendMessage
    rw [hblank, hcreate]
    rfl
  have hrow : message ∈ db1.messages ∧ message.text_content = some text ∧
      message.room_id = roomId ∧ message.username = username := by
    unfold Message.create at hcreate
    by_cases h0 : env.queryOk 0 = true
    · by_cases h1 : env.queryOk (0 + 1) = true
      · simp only [h0, h1, if_true, Except.ok.injEq, Prod.mk.injEq] at hcreate
        obtain ⟨hm, hdb⟩ := hcreate
        subst hm
        subst hdb
        simp
      · simp [h0, h1] at hcreate
    · simp [h0] at hcreate
  rw [hrun]
  refine ⟨rfl, ?_, hrow.1, hrow.2⟩
  intro hc e he
  simp only [List.mem_singleton] at he
  subst he
  exact hc

/-- C5, at a concrete input: c1, in room A with c2, sends hello. -/
theorem C5_send_message_broadcast_witness :
    whitespaceOnly "hello" = false ∧
    (onSendMessage demoInA demoEnv "c1" "A" (some "ann") (some "hello")).2 =
      [ { target := .room "A", event := "receive_message",
          payload := .receiveMessage
            { id := "m1", room_id := "A", username := some "ann",
              text_content := some "hello", image_url := none, created_at := 5 } 5,
          recipients := ["c1", "c2"] } ] :=
  ⟨by decide,
    (C5_send_message_broadcast demoInA demoEnv "c1" "A" (some "ann") "hello"
      { id := "m1", room_id := "A", username := some "ann",
        text_content := some "hello", image_url := none, created_at := 5 }
      _ (by decide) rfl).1⟩

/-- C6: a send_message event whose text is missing, empty or whitespace-only persists no
message (the database is unchanged) and emits no broadcast and no receive_message event. -/
theorem C6_blank_message_not_broadcast (st : Server) (env : Env) (c : SocketId)
    (roomId : RoomId) (username : Option String) (text : Option String)
    (hblank : missingOrBlank text = true) :
    (onSendMessage st env c roomId username text).1.db = st.db ∧
    ((onSendMessage st env c roomId username text).2.filter
      (fun e => e.target.isBroadcast || decide (e.event = "receive_message"))).length = 0 := by
  have h : isBlank text = true := by
    rw [isBlank_eq_missingOrBlank]
    exact hblank
  unfold onSendMessage
  rw [h]
  exact ⟨rfl, rfl⟩

/-- C6, at a concrete input: c1 sends a text of white space only to room A. -/
theorem C6_blank_message_not_broadcast_witness :
    missingOrBlank (some " \t\n") = true ∧
    (onSendMessage demoInA demoEnv "c1" "A" (some "ann") (some " \t\n")).1.db = demoInA.db :=
  ⟨by decide,
    (C6_blank_message_not_broadcast demoInA demoEnv "c1" "A" (some "ann") (some " \t\n")
      (by decide)).1⟩

/-- C7 (counterexample): a send_message event of c1 with the empty text, like one with a
whitespace-only text, emits nothing at all; in particular no error event reaches c1. -/
theorem C7_no_error_event :
    (onSendMessage demoInA demoEnv "c1" "A" (some "ann") (some "")).2 = [] ∧
    (onSendMessage demoInA demoEnv "c1" "A" (some "ann") (some "  ")).2 = [] ∧
    ¬ ∃ e ∈ (onSendMessage demoInA demoEnv "c1" "A" (some "ann") (some "")).2,
      e.event = "error" ∧ "c1" ∈ e.recipients := by
  decide

/-- C7 (amended): a send_message event whose text is empty or whitespace-only (or missing)
is dropped silently: the handler emits no event at all, neither an error event to the
originating connection nor anything to any other connection, and leaves the server state
unchanged. -/
theorem C7_blank_message_dropped_silently (st : Server) (env : Env) (c : SocketId)
    (roomId : RoomId) (username : Option String) (text : Option String)
    (hblank : missingOrBlank text = true) :
    onSendMessage st env c roomId username text = (st, []) := by
  have h : isBlank text = true := by
    rw [isBlank_eq_missingOrBlank]
    exact hblank
  unfold onSendMessage
  rw [h]
  rfl

/-- C7 (amended), at a concrete input: c1 sends the empty text to room A. -/
theorem C7_blank_message_dropped_silently_witness :
    missingOrBlank (some "") = true ∧
    onSendMessage demoInA demoEnv "c1" "A" (some "ann") (some "") = (demoInA, []) :=
  ⟨by decide,
    C7_blank_message_dropped_silently demoInA demoEnv "c1" "A" (some "ann") (some "")
      (by decide)⟩

/-! ## Typing indicators -/

/-- C8: a user_typing event from connection c emits exactly one event, typing_indicator
with the username of the payload and isTyping true, delivered to the members of room roomId
other than c: every member other than c receives it and c does not; user_stop_typing does
the same with isTyping false. Neither changes the server state. -/
theorem C8_typing_excludes_sender (st : Server) (c : SocketId) (roomId : RoomId)
    (username : Option String) :
    onUserTyping st c roomId username =
      (st, [ { target := .roomExcept roomId c, event := "typing_indicator",
               payload := .typingIndicator username true,
               recipients := (st.io.members roomId).filter (fun s => !decide (s = c)) } ]) ∧
    onUserStopTyping st c roomId username =
      (st, [ { target := .roomExcept roomId c, event := "typing_indicator",
               payload := .typingIndicator username false,
               recipients := (st.io.members roomId).filter (fun s => !decide (s = c)) } ]) ∧
    (∀ e ∈ (onUserTyping st c roomId username).2 ++ (onUserStopTyping st c roomId username).2,
      c ∉ e.recipients ∧ ∀ s, s ∈ e.recipients ↔ s ∈ st.io.members roomId ∧ s ≠ c) := by
  refine ⟨rfl, rfl, ?_⟩
  intro e he
  have hrec : e.recipients = (st.io.members roomId).filter (fun s => !decide (s = c)) := by
    simp only [onUserTyping, onUserStopTyping, socketToEmit, List.singleton_append,
      List.mem_cons, List.mem_singleton, List.not_mem_nil, or_false] at he
    rcases he with h | h <;> rw [h]
  rw [hrec]
  constructor
  · simp [List.mem_filter]
  · intro s
    simp [List.mem_filter]

/-! ## Message history -/

theorem createdDesc_sorted (l : List MessageRow) :
    (l.insertionSort (fun a b => b.created_at ≤ a.created_at)).Pairwise
      (fun a b => b.created_at ≤ a.created_at) := by
  haveI : IsTotal MessageRow (fun a b => b.created_at ≤ a.created_at) :=
    ⟨fun a b => Nat.le_total b.created_at a.created_at⟩
  haveI : IsTrans MessageRow (fun a b => b.created_at ≤ a.created_at) :=
    ⟨fun _ _ _ h1 h2 => Nat.le_trans h2 h1⟩
  exact List.sorted_insertionSort (fun a b => b.created_at ≤ a.created_at) l

theorem findByRoomId_page (db : Db) (env : Env) (q : Nat) (roomId : RoomId) (limit offset : Int)
    (hq : env.queryOk q = true) (hl : validLimit limit = true) (ho : validLimit offset = true) :
    Message.findByRoomId db env q roomId limit offset =
        .ok (((selectByRoomDesc db roomId).drop offset.toNat).take limit.toNat).reverse ∧
      ((((selectByRoomDesc db roomId).drop offset.toNat).take limit.toNat).reverse).length =
        min limit.toNat
          ((db.messages.filter (fun m => decide (m.room_id = roomId))).length - offset.toNat) ∧
      ((((selectByRoomDesc db roomId).drop offset.toNat).take limit.toNat).reverse).Pairwise
        (fun a b => a.created_at ≤ b.created_at) ∧
      (∀ m ∈ (((selectByRoomDesc db roomId).drop offset.toNat).take limit.toNat).reverse,
        m ∈ db.messages ∧ m.room_id = roomId) := by
  refine ⟨?_, ?_, ?_, ?_⟩
  · unfold Message.findByRoomId
    simp [hq, hl, ho]
  · simp [selectByRoomDesc, List.length_take, List.length_drop, List.length_insertionSort]
  · rw [List.pairwise_reverse]
    exact ((createdDesc_sorted _).sublist (List.drop_sublist _ _)).sublist
      (List.take_sublist _ _)
  · intro m hm
    have h1 : m ∈ selectByRoomDesc db roomId :=
      (List.drop_sublist _ _).subset ((List.take_sublist _ _).subset (List.mem_reverse.mp hm))
    have h2 : m ∈ db.messages.filter (fun m => decide (m.room_id = roomId)) :=
      (List.perm_insertionSort _ _).subset h1
    simpa [List.mem_filter] using h2

/-- C9 (counterexample): room A exists and holds 75 messages and every query is served,
but a request with limit 10^20 (or 2^63) and offset 0 is not answered with a page: the
database rejects the limit, the query throws and the route hands the error on. -/
theorem C9_huge_limit_fails :
    getRoomMessages demoDb75 demoEnv "A" (some 100000000000000000000) (some 0) = .failed ∧
    getRoomMessages demoDb75 demoEnv "A" (some (2 ^ 63)) (some 0) = .failed := by
  decide

/-- C9 (amended): for an existing room holding N messages and a request with limit L and
offset O, 1 <= L < 2^63 and 0 <= O < 2^63 (all queries served), GET /:id/messages answers
with status 200, total N, hasMore = (O + L < N) and exactly min(L, max(0, N - O)) messages
ordered oldest-first: the messages at positions O + 1 to O + L of the room's messages
taken newest-first, in reverse, so that the O newest messages come before the page and the
rest after it; with a limit from 2^63 on the route answers with the error of the query. -/
theorem C9_messages_page (db : Db) (env : Env) (id : RoomId) (room : RoomRow) (L O : Int)
    (hroom : db.rooms.find? (fun r => decide (r.id = id)) = some room)
    (hup : 3 ≤ env.dbUp) (hL : 1 ≤ L) (hLmax : L < 2 ^ 63) (hO : 0 ≤ O) (hOmax : O < 2 ^ 63) :
    (∃ data,
      getRoomMessages db env id (some L) (some O) =
        .ok data L O (db.messages.filter (fun m => decide (m.room_id = id))).length
          (decide (O + L <
            ((db.messages.filter (fun m => decide (m.room_id = id))).length : Int))) ∧
      (data.length : Int) =
        min L (max 0
          (((db.messages.filter (fun m => decide (m.room_id = id))).length : Int) - O)) ∧
      data.Pairwise (fun a b => a.created_at ≤ b.created_at) ∧
      (∀ m ∈ data, m ∈ db.messages ∧ m.room_id = id) ∧
      data = (((selectByRoomDesc db id).drop O.toNat).take L.toNat).reverse ∧
      selectByRoomDesc db id =
        (selectByRoomDesc db id).take O.toNat ++ data.reverse ++
          (selectByRoomDesc db id).drop (O.toNat + L.toNat)) ∧
    (selectByRoomDesc db id).Perm (db.messages.filter (fun m => decide (m.room_id = id))) ∧
    (selectByRoomDesc db id).Pairwise (fun a b => b.created_at ≤ a.created_at) ∧
    (∀ L2 : Int, 2 ^ 63 ≤ L2 → getRoomMessages db env id (some L2) (some O) = .failed) := by
  have h0 : env.queryOk 0 = true := by
    simp only [Env.queryOk, decide_eq_true_eq]; omega
  have h1 : env.queryOk 1 = true := by
    simp only [Env.queryOk, decide_eq_true_eq]; omega
  have h2 : env.queryOk 2 = true := by
    simp only [Env.queryOk, decide_eq_true_eq]; omega
  have hLne : L ≠ 0 := by omega
  have hlimit : parsedOr (some L) 50 = L := by simp [parsedOr, hLne]
  have hoffset : parsedOr (some O) 0 = O := by
    by_cases hz : O = 0 <;> simp [parsedOr, hz]
  have hvL : validLimit L = true := by
    simp only [validLimit, Bool.and_eq_true, decide_eq_true_eq]
    exact ⟨by omega, hLmax⟩
  have hvO : validLimit O = true := by
    simp only [validLimit, Bool.and_eq_true, decide_eq_true_eq]
    exact ⟨hO, hOmax⟩
  obtain ⟨hdata, hlen, hsorted, hmem⟩ := findByRoomId_page db env 1 id L O h1 hvL hvO
  refine ⟨⟨_, ?_, ?_, hsorted, hmem, rfl, ?_⟩, List.perm_insertionSort _ _,
    createdDesc_sorted _, ?_⟩
  · unfold getRoomMessages
    simp only [hlimit, hoffset]
    simp only [Room.findById, h0, if_true, hroom, hdata, Message.getRoomMessageCount, h2]
  · rw [hlen]
    omega
  · rw [List.reverse_reverse, List.append_assoc, ← List.drop_drop, List.take_append_drop,
      List.take_append_drop]
  · intro L2 hL2
    have hL2ne : L2 ≠ 0 := by
      intro h
      rw [h] at hL2
      exact absurd hL2 (by decide)
    have hlimit2 : parsedOr (some L2) 50 = L2 := by simp [parsedOr, hL2ne]
    have hv2 : validLimit L2 = false := by
      simp only [validLimit, Bool.and_eq_false_iff, decide_eq_false_iff_not]
      exact Or.inr (not_lt.mpr hL2)
    unfold getRoomMessages
    simp only [hlimit2, hoffset]
    simp only [Room.findById, h0, if_true, hroom, Message.findByRoomId, h1, hv2,
      Bool.true_and, Bool.false_and, Bool.false_eq_true, if_false]

/-- C9 (amended), at the example of the claim: room A holds 75 messages, created at times 0
to 74; with limit 50, offset 0 gives the 50 newest messages (times 25 to 74) and hasMore
true, and offset 50 the remaining 25 (times 0 to 24) and hasMore false. -/
theorem C9_messages_page_witness :
    demoDb75.rooms.find? (fun r => decide (r.id = "A")) =
      some { id := "A", name := "a", description := "", created_at := 0, updated_at := 0 } ∧
    3 ≤ demoEnv.dbUp ∧ (1 : Int) ≤ 50 ∧ (50 : Int) < 2 ^ 63 ∧ (0 : Int) ≤ 0 ∧
    (∃ data, getRoomMessages demoDb75 demoEnv "A" (some 50) (some 0) =
        .ok data 50 0 75 true ∧ (data.length : Int) = 50 ∧
        data.map (fun m => m.created_at) = List.range' 25 50) ∧
    (∃ data, getRoomMessages demoDb75 demoEnv "A" (some 50) (some 50) =
        .ok data 50 50 75 false ∧ (data.length : Int) = 25 ∧
        data.map (fun m => m.created_at) = List.range 25) := by
  have hN : (demoDb75.messages.filter (fun m => decide (m.room_id = "A"))).length = 75 := by
    decide
  refine ⟨by decide, by decide, by decide, by decide, by decide, ?_, ?_⟩
  · obtain ⟨⟨data, h1, h2, _, _, h5, _⟩, _⟩ :=
      C9_messages_page demoDb75 demoEnv "A" _ 50 0 rfl (by decide) (by decide) (by decide)
        (by decide) (by decide)
    rw [hN] at h1 h2
    refine ⟨data, h1, by simpa using h2, ?_⟩
    rw [h5]
    decide
  · obtain ⟨⟨data, h1, h2, _, _, h5, _⟩, _⟩ :=
      C9_messages_page demoDb75 demoEnv "A" _ 50 50 rfl (by decide) (by decide) (by decide)
        (by decide) (by decide)
    rw [hN] at h1 h2
    refine ⟨data, h1, by simpa using h2, ?_⟩
    rw [h5]
    decide

/-! ## Client outbound queue -/

/-- C10: while the client has a socket but is disconnected, emit for an event other than
connect and disconnect sends nothing on the transport (the socket is unchanged) and
appends exactly one entry (event, data, callback) to the end of messageQueue, the earlier
entries and their order unchanged; nothing else of the client changes. -/
theorem C10_emit_queues_when_disconnected (self : SocketClient) (sock : ClientSocket)
    (event data : String) (callback : Option Nat)
    (hsock : self.socket = some sock) (hconn : self.connected = false)
    (h1 : event ≠ "connect") (h2 : event ≠ "disconnect") :
    (self.emit event data callback).socket = some sock ∧
    (self.emit event data callback).messageQueue =
      self.messageQueue ++ [{ event := event, data := data, callback := callback }] ∧
    self.emit event data callback =
      { self with
          messageQueue :=
            self.messageQueue ++ [{ event := event, data := data, callback := callback }] } := by
  have hnot : ["connect", "disconnect"].contains event = false := by
    have e1 : (event == "connect") = false := by simpa using h1
    have e2 : (event == "disconnect") = false := by simpa using h2
    simp [List.contains, List.elem, e1, e2]
  have hrun : self.emit event data callback =
      { self with
          messageQueue :=
            self.messageQueue ++ [{ event := event, data := data, callback := callback }] } := by
    unfold SocketClient.emit
    rw [hsock]
    simp only [hconn, hnot]
    rfl
  rw [hrun]
  exact ⟨hsock, rfl, rfl⟩

/-- C10, at a concrete input: a disconnected client with one queued event emits
send_message. -/
theorem C10_emit_queues_when_disconnected_witness :
    demoClient.connected = false ∧
    (demoClient.emit "send_message" "hello" (some 3)).socket =
      some { sent := [{ event := "join_room", data := "A", callback := none }] } ∧
    (demoClient.emit "send_message" "hello" (some 3)).messageQueue =
      [ { event := "user_typing", data := "A", callback := none },
        { event := "send_message", data := "hello", callback := some 3 } ] :=
  ⟨rfl,
    (C10_emit_queues_when_disconnected demoClient _ "send_message" "hello" (some 3) rfl rfl
      (by decide) (by decide)).1,
    (C10_emit_queues_when_disconnected demoClient _ "send_message" "hello" (some 3) rfl rfl
      (by decide) (by decide)).2.1⟩

/-! ## Client connect handling -/

theorem SocketClient.emit_connected (self : SocketClient) (sock : ClientSocket)
    (event data : String) (callback : Option Nat)
    (hsock : self.socket = some sock) (hconn : self.connected = true)
    (hok : socketEmitThrows event = false) :
    self.emit event data callback =
      { self with
          socket := some { sock with
            sent := sock.sent ++ [{ event := event, data := data, callback := callback }] } } := by
  unfold SocketClient.emit
  rw [hsock]
  simp [hconn, hok]

theorem SocketClient.emit_connected_reserved (self : SocketClient) (sock : ClientSocket)
    (event data : String) (callback : Option Nat)
    (hsock : self.socket = some sock) (hconn : self.connected = true)
    (hthrows : socketEmitThrows event = true) :
    self.emit event data callback =
      { self with failedCallbacks := self.failedCallbacks ++ callback.toList } := by
  unfold SocketClient.emit
  rw [hsock]
  cases callback with
  | none =>
    cases self
    simp only at hsock hconn
    subst hsock
    subst hconn
    simp [hthrows]
  | some cb => simp [hconn, hthrows]

theorem sendable_cons (e : QueueEntry) (rest : List QueueEntry) :
    sendable (e :: rest) =
      if socketEmitThrows e.event then sendable rest else e :: sendable rest := by
  unfold sendable
  by_cases h : socketEmitThrows e.event = true <;> simp [List.filter_cons, h]

theorem rejectedCallbacks_cons (e : QueueEntry) (rest : List QueueEntry) :
    rejectedCallbacks (e :: rest) =
      if socketEmitThrows e.event then e.callback.toList ++ rejectedCallbacks rest
      else rejectedCallbacks rest := by
  unfold rejectedCallbacks
  by_cases h : socketEmitThrows e.event = true
  · cases hc : e.callback <;> simp [List.filter_cons, List.filterMap_cons, h, hc]
  · simp [List.filter_cons, h]

theorem SocketClient.foldl_emit_connected (l : List QueueEntry) (self : SocketClient)
    (sock : ClientSocket) (hsock : self.socket = some sock) (hconn : self.connected = true) :
    l.foldl (fun acc e => acc.emit e.event e.data e.callback) self =
      { self with
          socket := some { sock with sent := sock.sent ++ sendable l },
          failedCallbacks := self.failedCallbacks ++ rejectedCallbacks l } := by
  induction l generalizing self sock with
  | nil =>
    cases self
    simp only at hsock
    subst hsock
    simp [sendable, rejectedCallbacks]
  | cons e rest ih =>
    rw [List.foldl_cons, sendable_cons, rejectedCallbacks_cons]
    by_cases hth : socketEmitThrows e.event = true
    · rw [SocketClient.emit_connected_reserved self sock _ _ _ hsock hconn hth]
      have h := ih { self with failedCallbacks := self.failedCallbacks ++ e.callback.toList }
        sock hsock hconn
      refine Eq.trans h ?_
      simp [hth]
    · have hok : socketEmitThrows e.event = false := by simpa using hth
      rw [SocketClient.emit_connected self sock _ _ _ hsock hconn hok]
      have h := ih { self with socket := some { sock with sent := sock.sent ++ [e] } }
        { sock with sent := sock.sent ++ [e] } rfl hconn
      refine Eq.trans h ?_
      simp [hok]

theorem SocketClient.processMessageQueue_connected (self : SocketClient) (sock : ClientSocket)
    (hsock : self.socket = some sock) (hconn : self.connected = true) :
    self.processMessageQueue =
      { self with
          messageQueue := [],
          socket := some { sock with sent := sock.sent ++ sendable self.messageQueue },
          failedCallbacks := self.failedCallbacks ++ rejectedCallbacks self.messageQueue } := by
  unfold SocketClient.processMessageQueue
  by_cases hq : self.messageQueue = []
  · cases self
    simp only at hsock hq
    subst hsock
    subst hq
    simp [sendable, rejectedCallbacks]
  · have hlen : (self.messageQueue.length == 0) = false := by
      simpa using hq
    rw [hlen]
    simp only [Bool.false_eq_true, if_false]
    rw [SocketClient.foldl_emit_connected _ { self with messageQueue := [] } sock hsock hconn]

theorem SocketClient.onSocketConnect_eq (self : SocketClient) (sock : ClientSocket)
    (storage : ClientStorage) (hsock : self.socket = some sock) :
    self.onSocketConnect storage =
      { self with
          connected := true, reconnectAttempts := 0, messageQueue := [],
          socket := some { sock with
            sent := sock.sent ++ sendable self.messageQueue ++ rejoinEntries storage },
          failedCallbacks := self.failedCallbacks ++ rejectedCallbacks self.messageQueue } := by
  have hjoin : socketEmitThrows "join_room" = false := by decide
  unfold SocketClient.onSocketConnect
  rw [SocketClient.processMessageQueue_connected
    { self with connected := true, reconnectAttempts := 0 } sock hsock rfl]
  unfold rejoinEntries
  cases hr : storage.currentRoomId with
  | none => simp
  | some r =>
    cases hu : storage.username with
    | none => simp
    | some u =>
      by_cases ht : (truthy r && truthy u) = true
      · simp only [ht, if_true]
        rw [SocketClient.emit_connected _
          { sock with sent := sock.sent ++ sendable self.messageQueue } _ _ _ rfl rfl hjoin]
      · simp [ht]

theorem SocketClient.onceConnectWrapper_eq (self : SocketClient) (sock : ClientSocket)
    (hsock : self.socket = some sock) :
    self.onceConnectWrapper =
      { self with
          connected := true, reconnectAttempts := 0, messageQueue := [],
          socket := some { sock with
            sent := sock.sent ++ sendable self.messageQueue,
            connectListeners := sock.connectListeners.erase .onceWrapper },
          failedCallbacks := self.failedCallbacks ++ rejectedCallbacks self.messageQueue } := by
  unfold SocketClient.onceConnectWrapper
  rw [SocketClient.processMessageQueue_connected
    { self with connected := true, reconnectAttempts := 0 } sock hsock rfl]
  rfl

theorem SocketClient.handleConnect_eq (self : SocketClient) (sock : ClientSocket)
    (storage : ClientStorage) (hsock : self.socket = some sock)
    (hl : sock.connectListeners = [.setup, .onceWrapper] ∨ sock.connectListeners = [.setup]) :
    self.handleConnect storage =
      { self with
          connected := true, reconnectAttempts := 0, messageQueue := [],
          socket := some { sock with
            sent := sock.sent ++ sendable self.messageQueue ++ rejoinEntries storage,
            connectListeners := [.setup] },
          failedCallbacks := self.failedCallbacks ++ rejectedCallbacks self.messageQueue } := by
  unfold SocketClient.handleConnect
  rw [hsock]
  rcases hl with h | h
  · simp only [h, List.foldl_cons, List.foldl_nil, SocketClient.runConnectListener]
    rw [SocketClient.onSocketConnect_eq self sock storage hsock]
    rw [SocketClient.onceConnectWrapper_eq _
      { sock with
          sent := sock.sent ++ sendable self.messageQueue ++ rejoinEntries storage } rfl]
    simp [h, sendable, rejectedCallbacks]
  · simp only [h, List.foldl_cons, List.foldl_nil, SocketClient.runConnectListener]
    rw [SocketClient.onSocketConnect_eq self sock storage hsock]
    cases sock
    simp only at h
    subst h
    rfl

theorem sendable_eq_self (q : List QueueEntry)
    (h : ∀ e ∈ q, socketEmitThrows e.event = false) : sendable q = q := by
  unfold sendable
  rw [List.filter_eq_self]
  intro e he
  simp [h e he]

/-- C11 (counterexample): a client called connect() and, before the socket connected,
queued connect_error (with callback 1) and then send_message; when connect is handled the
queue is emptied but the connect_error entry is not sent on the transport: socket.emit
throws on the reserved name, and emit calls the callback of the entry with the error. -/
theorem C11_reserved_entry_not_sent :
    demoReservedQueued.messageQueue =
      [ { event := "connect_error", data := "x", callback := some 1 },
        { event := "send_message", data := "hello", callback := none } ] ∧
    (demoReservedQueued.handleConnect { }).messageQueue = [] ∧
    (demoReservedQueued.handleConnect { }).sentEvents =
      [{ event := "send_message", data := "hello", callback := none }] ∧
    (demoReservedQueued.handleConnect { }).failedCallbacks = [1] := by
  decide

/-- C11 (amended): when the socket fires connect with messageQueue = q, every entry of q
whose event name socket.io-client does not reserve is sent on the transport exactly once,
in queue order, right after what was sent before and before the rejoin, and messageQueue is
empty afterwards; an entry with a reserved event name is not sent, its callback is called
with the error instead; so a queue without reserved names is sent whole. This holds on the
first connect, where the listener of setupSocketHandlers and the once wrapper both call
processMessageQueue (the wrapper finds the queue empty and is then removed), and on later
connects, where only the listener of setupSocketHandlers is left: no entry is sent twice. -/
theorem C11_connect_flushes_queue_once (self : SocketClient) (sock : ClientSocket)
    (storage : ClientStorage) (hsock : self.socket = some sock)
    (hl : sock.connectListeners = [.setup, .onceWrapper] ∨ sock.connectListeners = [.setup]) :
    (self.handleConnect storage).messageQueue = [] ∧
    (self.handleConnect storage).sentEvents =
      sock.sent ++ self.messageQueue.filter (fun e => !socketEmitThrows e.event) ++
        rejoinEntries storage ∧
    (self.handleConnect storage).failedCallbacks =
      self.failedCallbacks ++
        (self.messageQueue.filter (fun e => socketEmitThrows e.event)).filterMap
          (fun e => e.callback) ∧
    ((∀ e ∈ self.messageQueue, socketEmitThrows e.event = false) →
      (self.handleConnect storage).sentEvents =
        sock.sent ++ self.messageQueue ++ rejoinEntries storage) ∧
    (self.handleConnect storage).connected = true ∧
    (self.handleConnect storage).socket.map (fun s => s.connectListeners) = some [.setup] := by
  rw [SocketClient.handleConnect_eq self sock storage hsock hl]
  refine ⟨rfl, rfl, rfl, ?_, rfl, rfl⟩
  intro h
  simp only [SocketClient.sentEvents]
  rw [sendable_eq_self _ h]

/-- C11 (amended), at a concrete input: the first connect of a client that queued
send_message after calling connect(); both connect listeners run and the entry is sent
once. -/
theorem C11_connect_flushes_queue_once_witness :
    demoConnecting.messageQueue =
      [{ event := "send_message", data := "hello", callback := none }] ∧
    (demoConnecting.handleConnect { }).messageQueue = [] ∧
    (demoConnecting.handleConnect { }).sentEvents =
      [] ++ [{ event := "send_message", data := "hello", callback := none }] ++
        rejoinEntries { } :=
  ⟨by decide,
    (C11_connect_flushes_queue_once demoConnecting
      { sent := [], connectListeners := [.setup, .onceWrapper] } { }
      (by decide) (Or.inl rfl)).1,
    (C11_connect_flushes_queue_once demoConnecting
      { sent := [], connectListeners := [.setup, .onceWrapper] } { }
      (by decide) (Or.inl rfl)).2.2.2.1 (by decide)⟩

/-- C12 (counterexample): on reconnect with stored room A, stored username ann and one
queued send_message, the queued event is sent first and the join_room for room A after
it. -/
theorem C12_queue_sent_before_rejoin :
    (demoReconnecting.handleConnect demoStorage).sentEvents =
      [ { event := "send_message", data := "hello", callback := none },
        { event := "join_room", data := joinRoomData "A" "ann", callback := none } ] ∧
    (demoReconnecting.handleConnect demoStorage).sentEvents.head? ≠
      some { event := "join_room", data := joinRoomData "A" "ann", callback := none } := by
  decide

/-- C12 (amended): on a connect with a stored non-empty room id and a stored non-empty
username, the client first sends the queued events, in queue order (all of them but the
entries with an event name that socket.io-client reserves, which are never sent), and only
then emits the join_room for the stored room: flush first, then rejoin. -/
theorem C12_flush_then_rejoin (self : SocketClient) (sock : ClientSocket)
    (storage : ClientStorage) (roomId username : String)
    (hsock : self.socket = some sock)
    (hl : sock.connectListeners = [.setup, .onceWrapper] ∨ sock.connectListeners = [.setup])
    (hroom : storage.currentRoomId = some roomId) (huser : storage.username = some username)
    (hr : truthy roomId = true) (hu : truthy username = true) :
    (self.handleConnect storage).sentEvents =
      sock.sent ++ self.messageQueue.filter (fun e => !socketEmitThrows e.event) ++
        [{ event := "join_room", data := joinRoomData roomId username, callback := none }] ∧
    ((∀ e ∈ self.messageQueue, socketEmitThrows e.event = false) →
      (self.handleConnect storage).sentEvents =
        sock.sent ++ self.messageQueue ++
          [{ event := "join_room", data := joinRoomData roomId username,
             callback := none }]) := by
  have hre : rejoinEntries storage =
      [{ event := "join_room", data := joinRoomData roomId username, callback := none }] := by
    simp [rejoinEntries, hroom, huser, hr, hu]
  rw [SocketClient.handleConnect_eq self sock storage hsock hl]
  refine ⟨?_, ?_⟩
  · simp only [SocketClient.sentEvents, hre]
    rfl
  · intro h
    simp only [SocketClient.sentEvents, hre]
    rw [sendable_eq_self _ h]

/-- C12 (amended), at a concrete input: the reconnecting client with one queued event. -/
theorem C12_flush_then_rejoin_witness :
    demoReconnecting.socket = some { sent := [], connectListeners := [.setup] } ∧
    (demoReconnecting.handleConnect demoStorage).sentEvents =
      [] ++ demoReconnecting.messageQueue ++
        [{ event := "join_room", data := joinRoomData "A" "ann", callback := none }] :=
  ⟨rfl,
    (C12_flush_then_rejoin demoReconnecting { sent := [], connectListeners := [.setup] }
      demoStorage "A" "ann" rfl (Or.inr rfl) rfl rfl (by decide) (by decide)).2 (by decide)⟩

/-- C13 (counterexample): with room A and username ann stored and a join_room for A queued,
one connect sends two join_room events carrying the stored values; with nothing stored the
queued join_room is still sent. -/
theorem C13_two_join_rooms :
    (demoQueuedJoin.handleConnect demoStorage).sentEvents =
      [ { event := "join_room", data := joinRoomData "A" "ann", callback := none },
        { event := "join_room", data := joinRoomData "A" "ann", callback := none } ] ∧
    (demoQueuedJoin.handleConnect { }).sentEvents =
      [ { event := "join_room", data := joinRoomData "A" "ann", callback := none } ] := by
  decide

/-- C13 (amended): on every connect event handled by the client, the join_room events sent
are the queued join_room events, flushed with the rest of the queue, followed by the one the
connect listener itself emits: exactly one, carrying the stored room id and username, if a
non-empty room id and a non-empty username are both stored, and none if either is
absent. -/
theorem C13_rejoin_once_after_queue (self : SocketClient) (sock : ClientSocket)
    (storage : ClientStorage) (hsock : self.socket = some sock)
    (hl : sock.connectListeners = [.setup, .onceWrapper] ∨ sock.connectListeners = [.setup]) :
    (((self.handleConnect storage).sentEvents.drop sock.sent.length).filter
        (fun e => decide (e.event = "join_room"))) =
      self.messageQueue.filter (fun e => decide (e.event = "join_room")) ++
        rejoinEntries storage ∧
    (∀ roomId username, storage.currentRoomId = some roomId →
      storage.username = some username → truthy roomId = true → truthy username = true →
      rejoinEntries storage =
        [{ event := "join_room", data := joinRoomData roomId username, callback := none }]) ∧
    (storage.currentRoomId = none ∨ storage.username = none → rejoinEntries storage = []) := by
  rw [SocketClient.handleConnect_eq self sock storage hsock hl]
  refine ⟨?_, ?_, ?_⟩
  · have hre : (rejoinEntries storage).filter (fun e => decide (e.event = "join_room")) =
        rejoinEntries storage := by
      unfold rejoinEntries
      cases storage.currentRoomId with
      | none => rfl
      | some r =>
        cases storage.username with
        | none => rfl
        | some u => by_cases ht : (truthy r && truthy u) = true <;> simp [ht]
    have hq : (sendable self.messageQueue).filter (fun e => decide (e.event = "join_room")) =
        self.messageQueue.filter (fun e => decide (e.event = "join_room")) := by
      unfold sendable
      rw [List.filter_filter]
      apply List.filter_congr
      intro e _
      by_cases hj : e.event = "join_room"
      · have hok : socketEmitThrows "join_room" = false := by decide
        simp [hj, hok]
      · simp [hj]
    simp [SocketClient.sentEvents, List.append_assoc, List.filter_append, hre, hq]
  · intro roomId username hroom huser hr hu
    simp [rejoinEntries, hroom, huser, hr, hu]
  · rintro (h | h)
    · simp [rejoinEntries, h]
    · unfold rejoinEntries
      rw [h]
      cases storage.currentRoomId <;> rfl

/-- C13 (amended), at a concrete input: the reconnecting client with a queued send_message
and room A and username ann stored sends exactly one join_room. -/
theorem C13_rejoin_once_after_queue_witness :
    demoReconnecting.socket = some { sent := [], connectListeners := [.setup] } ∧
    (((demoReconnecting.handleConnect demoStorage).sentEvents.drop 0).filter
        (fun e => decide (e.event = "join_room"))) =
      demoReconnecting.messageQueue.filter (fun e => decide (e.event = "join_room")) ++
        rejoinEntries demoStorage :=
  ⟨rfl,
    (C13_rejoin_once_after_queue demoReconnecting { sent := [], connectListeners := [.setup] }
      demoStorage rfl (Or.inr rfl)).1⟩

/-! ## Identification -/

theorem JsMap.set_set_same {κ ν : Type} [DecidableEq κ] (m : JsMap κ ν) (k : κ) (v : ν) :
    JsMap.set (JsMap.set m k v) k v = JsMap.set m k v := by
  induction m with
  | nil => simp [JsMap.set]
  | cons p m ih =>
    obtain ⟨k0, v0⟩ := p
    by_cases h : k0 = k
    · simp [JsMap.set, h]
    · simp [JsMap.set, h, ih]

theorem truthy_of_not_whitespaceOnly (u : String) (h : whitespaceOnly u = false) :
    truthy u = true := by
  by_cases hu : u = ""
  · subst hu
    exact absurd h (by decide)
  · unfold truthy
    simpa using hu

theorem onConnectUser_nonblank (st : Server) (env : Env) (c : SocketId) (u : String)
    (h : whitespaceOnly u = false) :
    onConnectUser st env c (some u) =
      ({ st with
          currentUser := st.currentUser.set c { st.currentUserOf c with username := u },
          activeUsers := st.activeUsers.set c u,
          userSockets := st.userSockets.set u c },
        [ioEmit st.io "user_connected" (.userConnected u (env.now 0))]) := by
  have hb : isBlank (some u) = false := by
    rw [isBlank_eq_missingOrBlank]
    exact h
  unfold onConnectUser
  simp [hb]

/-- C14: a connect_user event whose username is missing, empty or whitespace-only emits
exactly one event, error, to the originating connection only, hence no user_connected
broadcast, and leaves the whole server state, the registry (activeUsers, userSockets, the
connection's currentUser) included, unchanged. -/
theorem C14_blank_username_rejected (st : Server) (env : Env) (c : SocketId)
    (username : Option String) (hblank : missingOrBlank username = true) :
    onConnectUser st env c username =
      (st, [ { target := .socket c, event := "error",
               payload := .error "Username is required", recipients := [c] } ]) ∧
    (∀ e ∈ (onConnectUser st env c username).2,
      e.event ≠ "user_connected" ∧ e.recipients = [c]) := by
  have hrun : onConnectUser st env c username =
      (st, [ { target := .socket c, event := "error",
               payload := .error "Username is required", recipients := [c] } ]) := by
    cases username with
    | none => rfl
    | some u =>
      have hb : isBlank (some u) = true := by
        rw [isBlank_eq_missingOrBlank]
        exact hblank
      unfold onConnectUser
      simp [hb, socketEmit]
  refine ⟨hrun, ?_⟩
  rw [hrun]
  intro e he
  simp only [List.mem_singleton] at he
  subst he
  simp

/-- C14, at a concrete input: c1 sends connect_user with a username of spaces. -/
theorem C14_blank_username_rejected_witness :
    missingOrBlank (some "  ") = true ∧
    onConnectUser demoInA demoEnv "c1" (some "  ") =
      (demoInA, [ { target := .socket "c1", event := "error",
                    payload := .error "Username is required", recipients := ["c1"] } ]) :=
  ⟨by decide, (C14_blank_username_rejected demoInA demoEnv "c1" (some "  ") (by decide)).1⟩

/-- C15: a connect_user event with a non-blank username u on connection c leaves the
registry mapping c to identity u (activeUsers maps c to u, userSockets maps u to c, the
connection's currentUser.username is u) and emits one user_connected event with username u
to all connections; handling the same event a second time leaves the server state, in
particular activeUsers, userSockets and currentUser, as it was after the first. -/
theorem C15_identify_idempotent (st : Server) (env env2 : Env) (c : SocketId) (u : String)
    (hu : whitespaceOnly u = false) :
    (onConnectUser st env c (some u)).1.activeUsers.get c = some u ∧
    (onConnectUser st env c (some u)).1.userSockets.get u = some c ∧
    ((onConnectUser st env c (some u)).1.currentUserOf c).username = u ∧
    identityOf (onConnectUser st env c (some u)).1 c = some u ∧
    (onConnectUser st env c (some u)).2 =
      [ { target := .all, event := "user_connected",
          payload := .userConnected u (env.now 0), recipients := st.io.sockets } ] ∧
    (onConnectUser (onConnectUser st env c (some u)).1 env2 c (some u)).1 =
      (onConnectUser st env c (some u)).1 := by
  have ht := truthy_of_not_whitespaceOnly u hu
  rw [onConnectUser_nonblank _ env2 c u hu, onConnectUser_nonblank st env c u hu]
  refine ⟨?_, ?_, ?_, ?_, rfl, ?_⟩
  · simp [JsMap.get_set_self]
  · simp [JsMap.get_set_self]
  · simp [Server.currentUserOf, JsMap.get_set_self]
  · simp [identityOf, JsMap.get_set_self, Option.filter, ht]
  · simp [Server.currentUserOf, JsMap.get_set_self, JsMap.set_set_same]

/-- C15, at a concrete input: connection c2, in room A, sends connect_user zed. -/
theorem C15_identify_idempotent_witness :
    whitespaceOnly "zed" = false ∧
    identityOf (onConnectUser demoInA demoEnv "c2" (some "zed")).1 "c2" = some "zed" ∧
    (onConnectUser demoInA demoEnv "c2" (some "zed")).2 =
      [ { target := .all, event := "user_connected",
          payload := .userConnected "zed" (demoEnv.now 0),
          recipients := demoInA.io.sockets } ] :=
  ⟨by decide,
    (C15_identify_idempotent demoInA demoEnv demoEnv "c2" "zed" (by decide)).2.2.2.1,
    (C15_identify_idempotent demoInA demoEnv demoEnv "c2" "zed" (by decide)).2.2.2.2.1⟩

/-- C16 (counterexample): connection c1 is identified as ann; after a later connect_user
with username zed its identity is zed, not ann. -/
theorem C16_identity_overwritten :
    identityOf demoInA "c1" = some "ann" ∧
    identityOf (onConnectUser demoInA demoEnv "c1" (some "zed")).1 "c1" = some "zed" ∧
    identityOf (onConnectUser demoInA demoEnv "c1" (some "zed")).1 "c1" ≠ some "ann" := by
  decide

/-- C16 (amended): identification overwrites: for every connection already identified with
username u, a later connect_user event with a different non-blank username v replaces the
identity, which is v afterwards (in activeUsers and in the connection's
currentUser.username) and no longer u. -/
theorem C16_reidentify_overwrites (st : Server) (env : Env) (c : SocketId) (u v : String)
    (hid : identityOf st c = some u) (hv : whitespaceOnly v = false) (hne : v ≠ u) :
    identityOf (onConnectUser st env c (some v)).1 c = some v ∧
    identityOf (onConnectUser st env c (some v)).1 c ≠ identityOf st c ∧
    ((onConnectUser st env c (some v)).1.currentUserOf c).username = v := by
  have ht := truthy_of_not_whitespaceOnly v hv
  rw [onConnectUser_nonblank st env c v hv, hid]
  refine ⟨?_, ?_, ?_⟩
  · simp [identityOf, JsMap.get_set_self, Option.filter, ht]
  · simp [identityOf, JsMap.get_set_self, Option.filter, ht, hne]
  · simp [Server.currentUserOf, JsMap.get_set_self]

/-- C16 (amended), at a concrete input: c1, identified as ann, sends connect_user zed. -/
theorem C16_reidentify_overwrites_witness :
    identityOf demoInA "c1" = some "ann" ∧ whitespaceOnly "zed" = false ∧ "zed" ≠ "ann" ∧
    identityOf (onConnectUser demoInA demoEnv "c1" (some "zed")).1 "c1" = some "zed" :=
  ⟨by decide, by decide, by decide,
    (C16_reidentify_overwrites demoInA demoEnv "c1" "ann" "zed" (by decide) (by decide)
      (by decide)).1⟩

/-! ## Failures and disconnects -/

/-- C17: a join_room event whose room id the storage lookup does not find emits exactly one
event, error, to the originating connection only (Room not found when the query ran, Failed
to join room when it threw), so no room_joined, user_joined_room or user_list event, and
leaves the server state, the connection's room membership and currentUser.roomId included,
unchanged. -/
theorem C17_join_unknown_room (st : Server) (env : Env) (c : SocketId) (roomId : RoomId)
    (username : Option String)
    (hnone : st.db.rooms.find? (fun r => decide (r.id = roomId)) = none) :
    (∃ message, onJoinRoom st env c roomId username =
      (st, [ { target := .socket c, event := "error", payload := .error message,
               recipients := [c] } ]) ∧
      (env.queryOk 0 = true → message = "Room not found")) ∧
    (onJoinRoom st env c roomId username).1.io.members = st.io.members ∧
    ((onJoinRoom st env c roomId username).1.currentUserOf c).roomId =
      (st.currentUserOf c).roomId ∧
    (∀ e ∈ (onJoinRoom st env c roomId username).2,
      e.event = "error" ∧ e.recipients = [c]) := by
  have hrun : ∃ message, onJoinRoom st env c roomId username =
      (st, [ { target := .socket c, event := "error", payload := .error message,
               recipients := [c] } ]) ∧
      (env.queryOk 0 = true → message = "Room not found") := by
    by_cases hq : env.queryOk 0 = true
    · refine ⟨"Room not found", ?_, fun _ => rfl⟩
      unfold onJoinRoom Room.findById
      simp [hq, hnone, socketEmit]
    · refine ⟨"Failed to join room", ?_, fun h => absurd h hq⟩
      unfold onJoinRoom Room.findById
      simp [hq, socketEmit]
  obtain ⟨message, hm, hq⟩ := hrun
  refine ⟨⟨message, hm, hq⟩, ?_, ?_, ?_⟩
  · rw [hm]
  · rw [hm]
  · rw [hm]
    intro e he
    simp only [List.mem_singleton] at he
    subst he
    exact ⟨rfl, rfl⟩

/-- C17, at a concrete input: c1, in room A, sends join_room for a room Z that is not in
storage. -/
theorem C17_join_unknown_room_witness :
    demoInA.db.rooms.find? (fun r => decide (r.id = "Z")) = none ∧
    (∀ e ∈ (onJoinRoom demoInA demoEnv "c1" "Z" (some "ann")).2,
      e.event = "error" ∧ e.recipients = ["c1"]) ∧
    ((onJoinRoom demoInA demoEnv "c1" "Z" (some "ann")).1.currentUserOf "c1").roomId =
      some "A" :=
  ⟨by decide, (C17_join_unknown_room demoInA demoEnv "c1" "Z" (some "ann") (by decide)).2.2.2,
    by decide⟩

/-- C18: a send_message event (with non-blank text) or send_image event (with a non-empty
image URL) whose Message.create call fails emits exactly one event, error, to the
originating connection only, and so no receive_message event to any connection. -/
theorem C18_persistence_failure (st : Server) (env : Env) (c : SocketId) (roomId : RoomId)
    (username : Option String) (text imageUrl : String)
    (htext : whitespaceOnly text = false) (himage : truthy imageUrl = true) :
    (∀ db1, Message.create st.db env 0 roomId username (some text) none = .error db1 →
      (onSendMessage st env c roomId username (some text)).2 =
        [ { target := .socket c, event := "error",
            payload := .error "Failed to send message", recipients := [c] } ]) ∧
    (∀ db1, Message.create st.db env 0 roomId username none (some imageUrl) = .error db1 →
      (onSendImage st env c roomId username (some imageUrl)).2 =
        [ { target := .socket c, event := "error",
            payload := .error "Failed to send image", recipients := [c] } ]) := by
  have hb : isBlank (some text) = false := by
    rw [isBlank_eq_missingOrBlank]
    exact htext
  constructor
  · intro db1 hfail
    unfold onSendMessage
    rw [hb, hfail]
    rfl
  · intro db1 hfail
    unfold onSendImage
    simp only [himage, Bool.not_true, Bool.false_eq_true, if_false]
    rw [hfail]
    rfl

/-- C18, at a concrete input: the database is down when c1 sends hello to room A. -/
theorem C18_persistence_failure_witness :
    whitespaceOnly "hello" = false ∧ truthy "http://x/i.png" = true ∧
    Message.create demoInA.db demoEnvDown 0 "A" (some "ann") (some "hello") none =
      .error demoInA.db ∧
    (onSendMessage demoInA demoEnvDown "c1" "A" (some "ann") (some "hello")).2 =
      [ { target := .socket "c1", event := "error",
          payload := .error "Failed to send message", recipients := ["c1"] } ] :=
  ⟨by decide, by decide, rfl,
    (C18_persistence_failure demoInA demoEnvDown "c1" "A" (some "ann") "hello"
      "http://x/i.png" (by decide) (by decide)).1 demoInA.db rfl⟩

theorem SocketServer.not_mem_members_close (io : SocketServer) (c : SocketId) (room : String) :
    c ∉ (io.close c).members room := by
  unfold SocketServer.members
  cases h : (io.close c).rooms.get room with
  | none => simp
  | some ms =>
    simp only [Option.getD_some]
    unfold JsMap.get at h
    cases hf : List.find? (fun p => decide (p.1 = room)) (io.close c).rooms with
    | none => rw [hf] at h; cases h
    | some p =>
      rw [hf] at h
      simp only [Option.map_some', Option.some.injEq] at h
      subst h
      have hp : p ∈ (io.close c).rooms := List.mem_of_find?_eq_some hf
      simp only [SocketServer.close, List.mem_filterMap] at hp
      obtain ⟨p0, _, hp0⟩ := hp
      by_cases hc : c ∈ p0.2
      · simp only [hc, if_true] at hp0
        by_cases he : (p0.2.filter (fun s => !decide (s = c))).isEmpty = true
        · simp [he] at hp0
        · simp only [he, Bool.false_eq_true, if_false, Option.some.injEq] at hp0
          subst hp0
          simp [List.mem_filter]
      · simp only [hc, if_false, Option.some.injEq] at hp0
        subst hp0
        exact hc

/-- C19 (counterexample): connection c9 joined room A without identifying; although it is
a member of room A with bob when its transport closes, the disconnect handler emits
nothing. -/
theorem C19_unidentified_disconnect_silent :
    demoAnonInA.io.members "A" = ["c2", "c9"] ∧
    ((demoAnonInA.currentUserOf "c9").roomId = some "A") ∧
    (onDisconnect demoAnonInA demoEnv "c9").2 = [] := by
  decide

/-- C19 (amended): for every connection that has an identity in the registry and whose
currentUser.roomId records a room when its transport closes, the disconnect handler
removes the connection's registry entry (its activeUsers entry and the userSockets entry
of its username) and emits, in this order, user_left_room to the remaining members of that
room, a refreshed user_list to that room, and user_disconnected to all remaining
connections; the closed connection receives none of them. For a connection without
identity the handler does nothing: no event is emitted and the registry is untouched. -/
theorem C19_disconnect_emits (st : Server) (env : Env) (c : SocketId) (u : String)
    (roomId : RoomId)
    (hid : st.activeUsers.get c = some u) (hu : truthy u = true)
    (hroom : (st.currentUserOf c).roomId = some roomId) (hr : truthy roomId = true) :
    (onDisconnect st env c).1 =
      { st with
          io := st.io.close c,
          activeUsers := st.activeUsers.delete c,
          userSockets := st.userSockets.delete u } ∧
    (onDisconnect st env c).1.activeUsers.get c = none ∧
    (onDisconnect st env c).2 =
      [ { target := .roomExcept roomId c, event := "user_left_room",
          payload := .userLeftRoom u (env.now 0),
          recipients := (st.io.close c).members roomId },
        { target := .room roomId, event := "user_list",
          payload := .userList (getRoomUsers (onDisconnect st env c).1 roomId),
          recipients := (st.io.close c).members roomId },
        { target := .all, event := "user_disconnected",
          payload := .userDisconnected u (env.now 1),
          recipients := st.io.sockets.filter (fun s => !decide (s = c)) } ] ∧
    (∀ e ∈ (onDisconnect st env c).2, c ∉ e.recipients) ∧
    (∀ c2, identityOf st c2 = none →
      onDisconnect st env c2 = ({ st with io := st.io.close c2 }, [])) := by
  have hfilter : ((st.io.close c).members roomId).filter (fun s => !decide (s = c)) =
      (st.io.close c).members roomId := by
    rw [List.filter_eq_self]
    intro s hs
    have hne : s ≠ c := fun h => SocketServer.not_mem_members_close st.io c roomId (h ▸ hs)
    simpa using hne
  have hrun : onDisconnect st env c =
      ({ st with
          io := st.io.close c,
          activeUsers := st.activeUsers.delete c,
          userSockets := st.userSockets.delete u },
        [ { target := .roomExcept roomId c, event := "user_left_room",
            payload := .userLeftRoom u (env.now 0),
            recipients := (st.io.close c).members roomId },
          { target := .room roomId, event := "user_list",
            payload := .userList (getRoomUsers
              { st with
                  io := st.io.close c,
                  activeUsers := st.activeUsers.delete c,
                  userSockets := st.userSockets.delete u } roomId),
            recipients := (st.io.close c).members roomId },
          { target := .all, event := "user_disconnected",
            payload := .userDisconnected u (env.now 1),
            recipients := st.io.sockets.filter (fun s => !decide (s = c)) } ]) := by
    have hroom2 : (Server.currentUserOf
        { st with
            io := st.io.close c,
            activeUsers := st.activeUsers.delete c,
            userSockets := st.userSockets.delete u } c).roomId = some roomId := hroom
    unfold onDisconnect
    simp only [hid, hu, if_true, hroom2, socketToEmit, ioToEmit, ioEmit, hfilter]
    rw [if_pos hr]
    rfl
  have hanon : ∀ c2, identityOf st c2 = none →
      onDisconnect st env c2 = ({ st with io := st.io.close c2 }, []) := by
    intro c2 hnone
    unfold onDisconnect
    cases hget : st.activeUsers.get c2 with
    | none => simp only [hget]
    | some v =>
      have hv : ¬ truthy v = true := by
        intro hv
        have hsome : identityOf st c2 = some v :=
          (identityOf_eq_some st c2 v).mpr ⟨hget, hv⟩
        rw [hnone] at hsome
        cases hsome
      simp only [hget]
      rw [if_neg hv]
  rw [hrun]
  refine ⟨rfl, JsMap.get_delete_self _ _, rfl, ?_, hanon⟩
  intro e he
  simp only [List.mem_cons, List.mem_singleton, List.not_mem_nil, or_false] at he
  rcases he with h | h | h <;> subst h
  · exact SocketServer.not_mem_members_close st.io c roomId
  · exact SocketServer.not_mem_members_close st.io c roomId
  · simp [List.mem_filter]

/-- C19 (amended), at a concrete input: ann (connection c1), in room A with bob (c2),
disconnects. -/
theorem C19_disconnect_emits_witness :
    demoInA.activeUsers.get "c1" = some "ann" ∧
    (demoInA.currentUserOf "c1").roomId = some "A" ∧
    (onDisconnect demoInA demoEnv "c1").2.map (fun e => (e.event, e.recipients)) =
      [ ("user_left_room", ["c2"]), ("user_list", ["c2"]), ("user_disconnected", ["c2"]) ] ∧
    (∀ e ∈ (onDisconnect demoInA demoEnv "c1").2, "c1" ∉ e.recipients) :=
  ⟨by decide, by decide, by decide,
    (C19_disconnect_emits demoInA demoEnv "c1" "ann" "A" (by decide) (by decide) (by decide)
      (by decide)).2.2.2.1⟩

/-- C20 (counterexample): from the empty server, connection c9 connects and sends join_room
for room A without ever sending connect_user: it is a member of chat room A and has no
identity in the registry. -/
theorem C20_unidentified_member :
    "c9" ∈ demoAnonInA.io.members "A" ∧ chatRoomsOf demoAnonInA "c9" = ["A"] ∧
    identityOf demoAnonInA "c9" = none ∧ demoAnonInA.activeUsers.get "c9" = none := by
  decide

/-- C20 (amended): join_room does not look at the identity: a join_room event that finds
its room makes the originating connection a member of that room whether or not it has
completed a valid connect_user, and leaves its identity in the registry as it was; a
member connection without identity is only left out of the presence list of
getRoomUsers. -/
theorem C20_join_ignores_identity (st : Server) (env : Env) (c : SocketId) (roomId : RoomId)
    (username : Option String) (room : RoomRow)
    (hfound : Room.findById st.db env 0 roomId = .ok (some room)) :
    c ∈ (onJoinRoom st env c roomId username).1.io.members roomId ∧
    identityOf (onJoinRoom st env c roomId username).1 c = identityOf st c ∧
    (identityOf st c = none →
      ∀ e ∈ getRoomUsers (onJoinRoom st env c roomId username).1 roomId, e.socketId ≠ c) := by
  have hst := onJoinRoom_found st env c roomId username room hfound
  have hid : ∀ s, identityOf (onJoinRoom st env c roomId username).1 s = identityOf st s := by
    intro s
    rw [hst]
    rfl
  refine ⟨?_, hid c, ?_⟩
  · rw [hst]
    simp [SocketServer.members_join_self, mem_setAdd]
  · intro hnone e he hec
    rw [mem_getRoomUsers, hid, hec, hnone] at he
    cases he.2

/-- C20 (amended), at a concrete input: the unidentified connection c9 of the
counterexample joins room B. -/
theorem C20_join_ignores_identity_witness :
    Room.findById demoAnonInA.db demoEnv 0 "B" =
      .ok (some { id := "B", name := "b", description := "", created_at := 0,
                  updated_at := 0 }) ∧
    "c9" ∈ (onJoinRoom demoAnonInA demoEnv "c9" "B" none).1.io.members "B" ∧
    identityOf (onJoinRoom demoAnonInA demoEnv "c9" "B" none).1 "c9" = none :=
  ⟨rfl, (C20_join_ignores_identity demoAnonInA demoEnv "c9" "B" none _ rfl).1, by decide⟩

/-! ## Senders, payload usernames and the registry maps -/

/-- C21 (counterexample): connection c5 has joined no chat room; its send_message for room
A is broadcast as receive_message to the members c1 and c2 of room A. -/
theorem C21_outsider_broadcasts :
    chatRoomsOf demoOutsider "c5" = [] ∧
    (onSendMessage demoOutsider demoEnv "c5" "A" (some "eve") (some "hi")).2.map
        (fun e => (e.event, e.recipients)) =
      [("receive_message", ["c1", "c2"])] := by
  decide

/-- C21 (amended): a send_message event with non-blank text whose persistence succeeds is
broadcast as receive_message to the members of the room named by the roomId of the payload,
whether or not the sending connection is in that room or in any room: the emission is the
same for every sending connection. -/
theorem C21_broadcast_ignores_sender (st : Server) (env : Env) (c c2 : SocketId)
    (roomId : RoomId) (username : Option String) (text : String) (message : MessageRow)
    (db1 : Db) (htext : whitespaceOnly text = false)
    (hcreate : Message.create st.db env 0 roomId username (some text) none = .ok (message, db1)) :
    (onSendMessage st env c roomId username (some text)).2.map
        (fun e => (e.event, e.recipients)) =
      [("receive_message", st.io.members roomId)] ∧
    (onSendMessage st env c roomId username (some text)).2 =
      (onSendMessage st env c2 roomId username (some text)).2 := by
  have hblank : isBlank (some text) = false := by
    rw [isBlank_eq_missingOrBlank]
    exact htext
  have hrun : ∀ s, onSendMessage st env s roomId username (some text) =
      ({ st with db := db1 },
        [ioToEmit st.io roomId "receive_message"
          (.receiveMessage message message.created_at)]) := by
    intro s
    unfold onSendMessage
    rw [hblank, hcreate]
    rfl
  rw [hrun c, hrun c2]
  exact ⟨rfl, rfl⟩

/-- C21 (amended), at a concrete input: the outsider c5 and the member c1 send the same
text to room A. -/
theorem C21_broadcast_ignores_sender_witness :
    whitespaceOnly "hi" = false ∧
    (onSendMessage demoOutsider demoEnv "c5" "A" (some "eve") (some "hi")).2 =
      (onSendMessage demoOutsider demoEnv "c1" "A" (some "eve") (some "hi")).2 :=
  ⟨by decide,
    (C21_broadcast_ignores_sender demoOutsider demoEnv "c5" "c1" "A" (some "eve") "hi"
      { id := "m1", room_id := "A", username := some "eve", text_content := some "hi",
        image_url := none, created_at := 5 } _ (by decide) rfl).2⟩

/-- C27 (counterexample): in a reachable state with two connections identified as ann,
activeUsers maps c1 to ann while userSockets maps ann to c3; after c1 disconnects,
activeUsers still maps c3 to ann while userSockets has no entry for ann. -/
theorem C27_maps_inconsistent :
    demoTwoAnns.activeUsers.get "c1" = some "ann" ∧
    demoTwoAnns.userSockets.get "ann" = some "c3" ∧
    (onDisconnect demoTwoAnns demoEnv "c1").1.activeUsers.get "c3" = some "ann" ∧
    (onDisconnect demoTwoAnns demoEnv "c1").1.userSockets.get "ann" = none := by
  decide

/-- C27 (amended): the two registry maps are written together but each under its own key,
the last writer winning: after a connect_user with non-blank username u on connection s,
userSockets maps u to s and activeUsers maps s to u, and no other key of either map has
changed; after the disconnect of a connection s identified as u, activeUsers has no entry
for s and userSockets none for u. -/
theorem C27_last_writer_wins (st : Server) (env : Env) (s : SocketId) (u : String)
    (hu : whitespaceOnly u = false) :
    (onConnectUser st env s (some u)).1.userSockets.get u = some s ∧
    (onConnectUser st env s (some u)).1.activeUsers.get s = some u ∧
    (∀ s2, s2 ≠ s →
      (onConnectUser st env s (some u)).1.activeUsers.get s2 = st.activeUsers.get s2) ∧
    (∀ u2, u2 ≠ u →
      (onConnectUser st env s (some u)).1.userSockets.get u2 = st.userSockets.get u2) ∧
    (st.activeUsers.get s = some u →
      (onDisconnect st env s).1.activeUsers.get s = none ∧
      (onDisconnect st env s).1.userSockets.get u = none) := by
  have ht := truthy_of_not_whitespaceOnly u hu
  rw [onConnectUser_nonblank st env s u hu]
  refine ⟨JsMap.get_set_self _ _ _, JsMap.get_set_self _ _ _, ?_, ?_, ?_⟩
  · intro s2 hne
    exact JsMap.get_set_ne _ _ _ _ hne
  · intro u2 hne
    exact JsMap.get_set_ne _ _ _ _ hne
  · intro hid
    unfold onDisconnect
    simp only [hid, ht, if_true]
    exact ⟨JsMap.get_delete_self _ _, JsMap.get_delete_self _ _⟩

/-- C27 (amended), at a concrete input: c1 of the state with two anns identifies as zed. -/
theorem C27_last_writer_wins_witness :
    whitespaceOnly "zed" = false ∧
    (onConnectUser demoTwoAnns demoEnv "c1" (some "zed")).1.userSockets.get "zed" =
      some "c1" :=
  ⟨by decide, (C27_last_writer_wins demoTwoAnns demoEnv "c1" "zed" (by decide)).1⟩

theorem Message.create_messages (db : Db) (env : Env) (q : Nat) (roomId : RoomId)
    (username textContent imageUrl : Option String) (db1 : Db)
    (h : (∃ m, Message.create db env q roomId username textContent imageUrl = .ok (m, db1)) ∨
      Message.create db env q roomId username textContent imageUrl = .error db1) :
    ∀ x ∈ db1.messages, x ∈ db.messages ∨
      (x.text_content = textContent ∧ x.image_url = imageUrl ∧ x.username = username) := by
  intro x hx
  unfold Message.create at h
  by_cases h0 : env.queryOk q = true
  · by_cases h1 : env.queryOk (q + 1) = true
    · simp only [h0, h1, if_true] at h
      rcases h with ⟨m, hm⟩ | hm
      · simp only [Except.ok.injEq, Prod.mk.injEq] at hm
        obtain ⟨_, hdb⟩ := hm
        subst hdb
        simp only [List.mem_append, List.mem_singleton] at hx
        rcases hx with hx | hx
        · exact Or.inl hx
        · subst hx
          exact Or.inr ⟨rfl, rfl, rfl⟩
      · cases hm
    · simp only [h0, h1, if_true, Bool.false_eq_true, if_false] at h
      rcases h with ⟨m, hm⟩ | hm
      · cases hm
      · simp only [Except.error.injEq] at hm
        subst hm
        simp only [List.mem_append, List.mem_singleton] at hx
        rcases hx with hx | hx
        · exact Or.inl hx
        · subst hx
          exact Or.inr ⟨rfl, rfl, rfl⟩
  · simp only [h0, Bool.false_eq_true, if_false] at h
    rcases h with ⟨m, hm⟩ | hm
    · cases hm
    · simp only [Except.error.injEq] at hm
      subst hm
      exact Or.inl hx

/-- C28: every message that the send_message or the send_image handler adds to the stored
messages has exactly one of text content and image URL set: one added by send_message has
the non-blank text of the event and no image URL, one added by send_image has no text and
the non-empty image URL of the event. -/
theorem C28_exactly_one_content (st : Server) (env : Env) (c : SocketId) (roomId : RoomId)
    (username text imageUrl : Option String) :
    (∀ m ∈ (onSendMessage st env c roomId username text).1.db.messages,
      m ∈ st.db.messages ∨
        (exactlyOneSet m = true ∧ m.text_content = text ∧ missingOrBlank text = false ∧
          m.image_url = none)) ∧
    (∀ m ∈ (onSendImage st env c roomId username imageUrl).1.db.messages,
      m ∈ st.db.messages ∨
        (exactlyOneSet m = true ∧ m.text_content = none ∧ m.image_url = imageUrl ∧
          ∃ url, imageUrl = some url ∧ truthy url = true)) := by
  constructor
  · intro m hm
    unfold onSendMessage at hm
    by_cases hb : isBlank text = true
    · rw [if_pos hb] at hm
      exact Or.inl hm
    · rw [if_neg hb] at hm
      have hb2 : missingOrBlank text = false := by
        rw [← isBlank_eq_missingOrBlank]
        simpa using hb
      have hsome : ∃ t, text = some t := by
        cases text with
        | none => exact absurd rfl hb
        | some t => exact ⟨t, rfl⟩
      obtain ⟨t, ht⟩ := hsome
      cases hc : Message.create st.db env 0 roomId username text none with
      | ok r =>
        obtain ⟨row, db1⟩ := r
        rw [hc] at hm
        rcases Message.create_messages st.db env 0 roomId username text none db1
          (Or.inl ⟨row, hc⟩) m hm with h | ⟨h1, h2, _⟩
        · exact Or.inl h
        · exact Or.inr ⟨by simp [exactlyOneSet, h1, h2, ht], h1, hb2, h2⟩
      | error db1 =>
        rw [hc] at hm
        rcases Message.create_messages st.db env 0 roomId username text none db1
          (Or.inr hc) m hm with h | ⟨h1, h2, _⟩
        · exact Or.inl h
        · exact Or.inr ⟨by simp [exactlyOneSet, h1, h2, ht], h1, hb2, h2⟩
  · intro m hm
    unfold onSendImage at hm
    cases imageUrl with
    | none => exact Or.inl hm
    | some url =>
      simp only at hm
      by_cases hu : truthy url = true
      · simp only [hu, Bool.not_true, Bool.false_eq_true, if_false] at hm
        cases hc : Message.create st.db env 0 roomId username none (some url) with
        | ok r =>
          obtain ⟨row, db1⟩ := r
          rw [hc] at hm
          rcases Message.create_messages st.db env 0 roomId username none (some url) db1
            (Or.inl ⟨row, hc⟩) m hm with h | ⟨h1, h2, _⟩
          · exact Or.inl h
          · exact Or.inr ⟨by simp [exactlyOneSet, h1, h2], h1, h2, url, rfl, hu⟩
        | error db1 =>
          rw [hc] at hm
          rcases Message.create_messages st.db env 0 roomId username none (some url) db1
            (Or.inr hc) m hm with h | ⟨h1, h2, _⟩
          · exact Or.inl h
          · exact Or.inr ⟨by simp [exactlyOneSet, h1, h2], h1, h2, url, rfl, hu⟩
      · have hu2 : truthy url = false := by simpa using hu
        simp only [hu2, Bool.not_false, if_true] at hm
        exact Or.inl hm

/-- C29 (counterexample): connection c1 is registered as ann; its user_typing, join_room
and send_message events with username bob in the payload produce typing_indicator,
user_joined_room and receive_message events that carry bob. -/
theorem C29_payload_username_forwarded :
    identityOf demoInA "c1" = some "ann" ∧
    (onUserTyping demoInA "c1" "A" (some "bob")).2.map (fun e => e.payload) =
      [.typingIndicator (some "bob") true] ∧
    ((onJoinRoom demoInA demoEnv "c1" "B" (some "bob")).2.map (fun e => e.payload)).get? 1 =
      some (.userJoinedRoom (some "bob") "B" 7) ∧
    (onSendMessage demoInA demoEnv "c1" "A" (some "bob") (some "hi")).2.map
        (fun e => e.payload) =
      [.receiveMessage { id := "m1", room_id := "A", username := some "bob",
                         text_content := some "hi", image_url := none, created_at := 5 } 5] := by
  decide

theorem Message.create_ok_username (db : Db) (env : Env) (q : Nat) (roomId : RoomId)
    (username textContent imageUrl : Option String) (row : MessageRow) (db1 : Db)
    (h : Message.create db env q roomId username textContent imageUrl = .ok (row, db1)) :
    row.username = username := by
  unfold Message.create at h
  by_cases h0 : env.queryOk q = true
  · by_cases h1 : env.queryOk (q + 1) = true
    · simp only [h0, h1, if_true, Except.ok.injEq, Prod.mk.injEq] at h
      rw [← h.1]
    · simp [h0, h1] at h
  · simp [h0] at h

/-- C29 (amended): the username carried by every user_joined_room, receive_message and
typing_indicator event is the username field of the inbound payload that caused it,
whatever identity is registered for the connection: the handlers (join_room, send_message,
send_image, user_typing, user_stop_typing) forward the payload username and never read the
registry. -/
theorem C29_username_from_payload (st : Server) (env : Env) (c : SocketId) (roomId : RoomId)
    (username text imageUrl : Option String) :
    (∀ e ∈ (onUserTyping st c roomId username).2,
      e.payload = .typingIndicator username true) ∧
    (∀ e ∈ (onUserStopTyping st c roomId username).2,
      e.payload = .typingIndicator username false) ∧
    (∀ e ∈ (onJoinRoom st env c roomId username).2, e.event = "user_joined_room" →
      e.payload = .userJoinedRoom username roomId (env.now 0)) ∧
    (∀ e ∈ (onSendMessage st env c roomId username text).2, e.event = "receive_message" →
      ∃ m, e.payload = .receiveMessage m m.created_at ∧ m.username = username) ∧
    (∀ e ∈ (onSendImage st env c roomId username imageUrl).2, e.event = "receive_message" →
      ∃ m, e.payload = .receiveMessage m m.created_at ∧ m.username = username) := by
  refine ⟨?_, ?_, ?_, ?_, ?_⟩
  · intro e he
    simp only [onUserTyping, socketToEmit, List.mem_singleton] at he
    rw [he]
  · intro e he
    simp only [onUserStopTyping, socketToEmit, List.mem_singleton] at he
    rw [he]
  · intro e he hev
    unfold onJoinRoom at he
    cases hf : Room.findById st.db env 0 roomId with
    | error err =>
      rw [hf] at he
      simp only [socketEmit, List.mem_singleton] at he
      rw [he] at hev
      simp at hev
    | ok found =>
      cases found with
      | none =>
        rw [hf] at he
        simp only [socketEmit, List.mem_singleton] at he
        rw [he] at hev
        simp at hev
      | some room =>
        rw [hf] at he
        simp only at he
        cases hh : Message.findByRoomId st.db env 1 roomId with
        | error err =>
          rw [hh] at he
          simp only [socketEmit, List.mem_singleton] at he
          rw [he] at hev
          simp at hev
        | ok messages =>
          rw [hh] at he
          simp only [socketEmit, socketToEmit, ioToEmit, List.mem_cons, List.mem_singleton,
            List.not_mem_nil, or_false] at he
          rcases he with h | h | h
          · rw [h] at hev
            simp at hev
          · rw [h]
          · rw [h] at hev
            simp at hev
  · intro e he hev
    unfold onSendMessage at he
    by_cases hb : isBlank text = true
    · rw [if_pos hb] at he
      simp at he
    · rw [if_neg hb] at he
      cases hc : Message.create st.db env 0 roomId username text none with
      | ok r =>
        obtain ⟨row, db1⟩ := r
        rw [hc] at he
        simp only [ioToEmit, List.mem_singleton] at he
        refine ⟨row, by rw [he], ?_⟩
        unfold Message.create at hc
        by_cases h0 : env.queryOk 0 = true
        · by_cases h1 : env.queryOk (0 + 1) = true
          · simp only [h0, h1, if_true, Except.ok.injEq, Prod.mk.injEq] at hc
            rw [← hc.1]
          · simp [h0, h1] at hc
        · simp [h0] at hc
      | error db1 =>
        rw [hc] at he
        simp only [socketEmit, List.mem_singleton] at he
        rw [he] at hev
        simp at hev
  · intro e he hev
    unfold onSendImage at he
    cases imageUrl with
    | none => simp at he
    | some url =>
      simp only at he
      by_cases hu : truthy url = true
      · simp only [hu, Bool.not_true, Bool.false_eq_true, if_false] at he
        cases hc : Message.create st.db env 0 roomId username none (some url) with
        | ok r =>
          obtain ⟨row, db1⟩ := r
          rw [hc] at he
          simp only [ioToEmit, List.mem_singleton] at he
          exact ⟨row, by rw [he],
            Message.create_ok_username st.db env 0 roomId username none (some url) row db1 hc⟩
        | error db1 =>
          rw [hc] at he
          simp only [socketEmit, List.mem_singleton] at he
          rw [he] at hev
          simp at hev
      · have hu2 : truthy url = false := by simpa using hu
        simp only [hu2, Bool.not_false, if_true] at he
        simp at he

/-! ## Flushing while disconnected -/

theorem SocketClient.emit_disconnected (self : SocketClient) (sock : ClientSocket)
    (event data : String) (callback : Option Nat)
    (hsock : self.socket = some sock) (hconn : self.connected = false)
    (h1 : event ≠ "connect") (h2 : event ≠ "disconnect") :
    self.emit event data callback =
      { self with
          messageQueue :=
            self.messageQueue ++ [{ event := event, data := data, callback := callback }] } := by
  have e1 : (event == "connect") = false := by simpa using h1
  have e2 : (event == "disconnect") = false := by simpa using h2
  have hnot : ["connect", "disconnect"].contains event = false := by
    simp [List.contains, List.elem, e1, e2]
  unfold SocketClient.emit
  rw [hsock]
  simp only [hconn, hnot]
  rfl

theorem SocketClient.foldl_emit_disconnected (l : List QueueEntry) (self : SocketClient)
    (sock : ClientSocket) (hsock : self.socket = some sock) (hconn : self.connected = false)
    (hl : ∀ e ∈ l, e.event ≠ "connect" ∧ e.event ≠ "disconnect") :
    l.foldl (fun acc e => acc.emit e.event e.data e.callback) self =
      { self with messageQueue := self.messageQueue ++ l } := by
  induction l generalizing self with
  | nil => simp
  | cons e rest ih =>
    have he := hl e (List.mem_cons_self _ _)
    rw [List.foldl_cons, SocketClient.emit_disconnected self sock _ _ _ hsock hconn he.1 he.2]
    have h := ih { self with messageQueue := self.messageQueue ++ [e] } hsock hconn
      (fun x hx => hl x (List.mem_cons_of_mem _ hx))
    refine Eq.trans h ?_
    simp

/-- C30: for every client with a socket, connected = false and a messageQueue q none of
whose events is connect or disconnect, processMessageQueue sends nothing on the transport
and leaves messageQueue equal to q, the same entries in the same order; the client is left
as it was. -/
theorem C30_flush_while_disconnected (self : SocketClient) (sock : ClientSocket)
    (hsock : self.socket = some sock) (hconn : self.connected = false)
    (hq : ∀ e ∈ self.messageQueue, e.event ≠ "connect" ∧ e.event ≠ "disconnect") :
    self.processMessageQueue.messageQueue = self.messageQueue ∧
    self.processMessageQueue.sentEvents = self.sentEvents ∧
    self.processMessageQueue = self := by
  have hrun : self.processMessageQueue = self := by
    unfold SocketClient.processMessageQueue
    by_cases hlen : (self.messageQueue.length == 0) = true
    · rw [if_pos hlen]
    · rw [if_neg hlen]
      rw [SocketClient.foldl_emit_disconnected self.messageQueue
        { self with messageQueue := [] } sock hsock hconn hq]
      simp
  rw [hrun]
  exact ⟨rfl, rfl, rfl⟩

/-- C30, at a concrete input: the disconnected client with one queued user_typing event. -/
theorem C30_flush_while_disconnected_witness :
    demoClient.connected = false ∧
    (∀ e ∈ demoClient.messageQueue, e.event ≠ "connect" ∧ e.event ≠ "disconnect") ∧
    demoClient.processMessageQueue.messageQueue =
      [{ event := "user_typing", data := "A", callback := none }] :=
  ⟨rfl, by decide,
    (C30_flush_while_disconnected demoClient _ rfl rfl (by decide)).1⟩

/-! ## Chat page: history and typing users -/

/-- C22 (code at the failing input): room A holds 75 messages created at times 0 to 74; the
first page is requested with offset 0 and the backfill page with offset 50; the held list
is the newest 50 messages (times 25 to 74) followed by the older 25 (times 0 to 24), which
is not ordered oldest-first. -/
theorem C22_backfill_appended_after_newer :
    demoTwoPages.historyRequests = [("A", 50, 0), ("A", 50, 50)] ∧
    demoTwoPages.messages.map (fun m => m.created_at) = List.range' 25 50 ++ List.range 25 ∧
    ¬ demoTwoPages.messages.Pairwise (fun a b => a.created_at ≤ b.created_at) := by
  decide

/-- C23 (counterexample): a chat page with hasMore = false and no message held calls
loadRoomMessages with reset = false for room A of 75 messages: one history request is
issued and 50 messages are added. -/
theorem C23_request_despite_no_more :
    demoNoMore.messagePagination.hasMore = false ∧
    (demoNoMore.loadRoomMessages (serverFetch demoDb75 demoEnv) "A" false).historyRequests =
      [("A", 50, 0)] ∧
    (demoNoMore.loadRoomMessages (serverFetch demoDb75 demoEnv) "A" false).messages.length =
      50 := by
  decide

/-- C23 (amended): loadRoomMessages does not read hasMore: for every client state, also one
with messagePagination.hasMore = false, loadRoomMessages(roomId, reset = false) issues
exactly one history request, with the current limit and offset, and on an ok response
appends the returned messages to the held ones and records the hasMore flag of the
response and the new number of held messages as offset; hasMore is only stored. -/
theorem C23_backfill_not_gated (self : ChatApp) (fetch : RoomId → Int → Int → MessagesResponse)
    (roomId : RoomId) :
    (self.loadRoomMessages fetch roomId false).historyRequests =
      self.historyRequests ++
        [(roomId, self.messagePagination.limit, self.messagePagination.offset)] ∧
    (∀ data limit offset total hasMore,
      fetch roomId self.messagePagination.limit self.messagePagination.offset =
        .ok data limit offset total hasMore →
      (self.loadRoomMessages fetch roomId false).messages = self.messages ++ data ∧
      (self.loadRoomMessages fetch roomId false).messagePagination =
        { limit := self.messagePagination.limit,
          offset := ((self.messages ++ data).length : Int), hasMore := hasMore }) := by
  constructor
  · unfold ChatApp.loadRoomMessages
    simp only [Bool.false_eq_true, if_false]
    split <;> rfl
  · intro data limit offset total hasMore hfetch
    unfold ChatApp.loadRoomMessages
    simp only [Bool.false_eq_true, if_false]
    rw [hfetch]
    exact ⟨rfl, rfl⟩

/-- C23 (amended), at a concrete input: the page with hasMore = false and a fetch that
answers with no message. -/
theorem C23_backfill_not_gated_witness :
    (demoNoMore.loadRoomMessages (fun _ _ _ => .ok [] 50 0 0 false) "A" false).historyRequests =
      [("A", 50, 0)] ∧
    (demoNoMore.loadRoomMessages (fun _ _ _ => .ok [] 50 0 0 false) "A" false).messages =
      demoNoMore.messages ++ [] :=
  ⟨(C23_backfill_not_gated demoNoMore (fun _ _ _ => .ok [] 50 0 0 false) "A").1,
    ((C23_backfill_not_gated demoNoMore (fun _ _ _ => .ok [] 50 0 0 false) "A").2
      [] 50 0 0 false rfl).1⟩

theorem ChatApp.updateOnlineUsers_typingUsers (self : ChatApp) (users : List RoomUser) :
    (self.updateOnlineUsers users).typingUsers = self.typingUsers := by
  unfold ChatApp.updateOnlineUsers
  have h : ∀ (l : List RoomUser) (acc : ChatApp),
      (l.foldl
        (fun acc user =>
          if some user.username ≠ acc.username then
            { acc with
                onlineUsers := acc.onlineUsers.set (some user.username)
                  { username := some user.username, socketId := some user.socketId,
                    status := none } }
          else acc) acc).typingUsers = acc.typingUsers := by
    intro l
    induction l with
    | nil => intro acc; rfl
    | cons user rest ih =>
      intro acc
      rw [List.foldl_cons, ih]
      split <;> rfl
  rw [h]

theorem ChatApp.handleServerEvent_typingUsers (self : ChatApp) (p : Payload)
    (hp : ∀ u t, p ≠ .typingIndicator u t) :
    (self.handleServerEvent p).typingUsers = self.typingUsers := by
  cases p with
  | typingIndicator u t => exact absurd rfl (hp u t)
  | userList users => exact ChatApp.updateOnlineUsers_typingUsers self users
  | userJoinedRoom u r t =>
    simp only [ChatApp.handleServerEvent, ChatApp.addOnlineUser]
    split <;> rfl
  | error m => rfl
  | userConnected u t => rfl
  | roomJoined r m u => rfl
  | receiveMessage m t => rfl
  | userLeftRoom u t => rfl
  | userDisconnected u t => rfl

theorem ChatApp.receive_typingUsers (self : ChatApp) (d : SocketId) (emits : List Emit)
    (h : ∀ e ∈ emits, ∀ u t, e.payload ≠ .typingIndicator u t) :
    (self.receive d emits).typingUsers = self.typingUsers := by
  unfold ChatApp.receive
  induction emits generalizing self with
  | nil => rfl
  | cons e rest ih =>
    rw [List.foldl_cons, ih _ (fun x hx => h x (List.mem_cons_of_mem _ hx))]
    split
    · exact ChatApp.handleServerEvent_typingUsers self e.payload
        (h e (List.mem_cons_self _ _))
    · rfl

theorem onDisconnect_no_typing (st : Server) (env : Env) (c : SocketId) :
    ∀ e ∈ (onDisconnect st env c).2, ∀ u t, e.payload ≠ .typingIndicator u t := by
  intro e he u t
  unfold onDisconnect at he
  simp only at he
  split at he
  · simp at he
  · split at he
    · simp only [List.mem_append, List.mem_singleton] at he
      rcases he with he | he
      · split at he
        · simp at he
        · split at he
          · simp only [socketToEmit, ioToEmit, List.mem_cons, List.mem_singleton,
              List.not_mem_nil, or_false] at he
            rcases he with h | h <;> rw [h] <;> simp
          · simp at he
      · rw [he]
        simp [ioEmit]
    · simp at he

/-- C24 (counterexample): bob's chat page shows ann as typing; ann's connection c1
disconnects and bob's page handles the events delivered to it (user_left_room with username
ann, user_list, user_disconnected): ann is still in typingUsers. -/
theorem C24_typing_flag_stuck :
    ((onDisconnect demoInA demoEnv "c1").2.filter (fun e => decide ("c2" ∈ e.recipients))).map
        (fun e => e.event) = ["user_left_room", "user_list", "user_disconnected"] ∧
    (demoBobPage.receive "c2" (onDisconnect demoInA demoEnv "c1").2).typingUsers =
      [some "ann"] ∧
    some "ann" ∈ (demoBobPage.receive "c2" (onDisconnect demoInA demoEnv "c1").2).typingUsers := by
  decide

/-- C24 (amended): the typing flag of a user is cleared only by a typing_indicator event
with isTyping false: for every client, after the server handles the disconnect of a
connection and the client handles the resulting events (user_left_room, user_list,
user_disconnected), typingUsers is what it was, so a user in it stays in it; handling
typing_indicator with isTyping false for u removes u. -/
theorem C24_typing_cleared_only_by_indicator (self : ChatApp) (d : SocketId) (st : Server)
    (env : Env) (c : SocketId) (u : Option String) :
    (self.receive d (onDisconnect st env c).2).typingUsers = self.typingUsers ∧
    u ∉ (self.handleServerEvent (.typingIndicator u false)).typingUsers := by
  constructor
  · exact ChatApp.receive_typingUsers self d _ (onDisconnect_no_typing st env c)
  · simp [ChatApp.handleServerEvent, ChatApp.onTypingIndicator, List.mem_filter]

/-! ## Typing timer -/

theorem UI.keystroke_first (ui : UI) (t : Nat) (hidle : ui.timers = []) (hnow : ui.now ≤ t) :
    (ui.keystroke t).timers = [(ui.nextTimerId, t + TYPING_TIMEOUT)] ∧
    (ui.keystroke t).typingTimer = some ui.nextTimerId ∧
    (ui.keystroke t).now = t ∧
    (ui.keystroke t).dispatched = ui.dispatched ++ ["userTyping"] := by
  have hmax : max ui.now t = t := Nat.max_eq_right hnow
  unfold UI.keystroke UI.handleTyping UI.advance
  cases htt : ui.typingTimer <;> simp [hidle, htt, hmax]

theorem UI.keystroke_next (ui : UI) (a b id : Nat)
    (htimers : ui.timers = [(id, a + TYPING_TIMEOUT)]) (htimer : ui.typingTimer = some id)
    (hnow : ui.now = a) (hab : a ≤ b) (hidle : b < a + TYPING_TIMEOUT) :
    (ui.keystroke b).timers = [(ui.nextTimerId, b + TYPING_TIMEOUT)] ∧
    (ui.keystroke b).typingTimer = some ui.nextTimerId ∧
    (ui.keystroke b).now = b ∧
    (ui.keystroke b).dispatched = ui.dispatched ++ ["userTyping"] := by
  have hmax : max a b = b := Nat.max_eq_right hab
  have hnot : ¬ a + TYPING_TIMEOUT ≤ b := Nat.not_le.mpr hidle
  unfold UI.keystroke UI.handleTyping UI.advance
  simp [htimers, htimer, hnow, hmax, hnot]

theorem UI.keystrokes_chain (ts : List Nat) (ui : UI) (a id : Nat)
    (htimers : ui.timers = [(id, a + TYPING_TIMEOUT)]) (htimer : ui.typingTimer = some id)
    (hnow : ui.now = a)
    (hchain : List.Chain (fun x y => x ≤ y ∧ y < x + TYPING_TIMEOUT) a ts) :
    (∃ id2, (ui.keystrokes ts).timers = [(id2, lastTime a ts + TYPING_TIMEOUT)] ∧
      (ui.keystrokes ts).typingTimer = some id2) ∧
    (ui.keystrokes ts).now = lastTime a ts ∧
    (ui.keystrokes ts).dispatched = ui.dispatched ++ List.replicate ts.length "userTyping" := by
  induction ts generalizing ui a id with
  | nil => exact ⟨⟨id, htimers, htimer⟩, hnow, by simp [UI.keystrokes]⟩
  | cons b rest ih =>
    cases hchain with
    | cons hab hrest =>
      obtain ⟨h1, h2, h3, h4⟩ := UI.keystroke_next ui a b id htimers htimer hnow hab.1 hab.2
      obtain ⟨hex, hn, hd⟩ := ih (ui.keystroke b) b ui.nextTimerId h1 h2 h3 hrest
      refine ⟨hex, hn, ?_⟩
      have hk : ui.keystrokes (b :: rest) = (ui.keystroke b).keystrokes rest := rfl
      rw [hk, hd, h4, List.append_assoc]
      rfl

/-- C25: for every burst of keystrokes at times t0, then ts (n = 1 + length of ts), starting
with no timeout pending, in which each keystroke comes before the idle timer started by the
previous one expires, handleTyping dispatches exactly n userTyping events and no
userStopTyping event between them, and once the timer of the last keystroke has expired
exactly one userStopTyping event has been dispatched, after which no timeout is pending. -/
theorem C25_typing_burst (ui : UI) (t0 : Nat) (ts : List Nat) (T : Nat)
    (hidle : ui.timers = []) (hnow : ui.now ≤ t0)
    (hchain : List.Chain (fun x y => x ≤ y ∧ y < x + TYPING_TIMEOUT) t0 ts)
    (hT : lastTime t0 ts + TYPING_TIMEOUT ≤ T) :
    (ui.keystrokes (t0 :: ts)).dispatched =
      ui.dispatched ++ List.replicate (ts.length + 1) "userTyping" ∧
    ((ui.keystrokes (t0 :: ts)).advance T).dispatched =
      ui.dispatched ++ List.replicate (ts.length + 1) "userTyping" ++ ["userStopTyping"] ∧
    ((ui.keystrokes (t0 :: ts)).advance T).timers = [] := by
  obtain ⟨h1, h2, h3, h4⟩ := UI.keystroke_first ui t0 hidle hnow
  obtain ⟨⟨id2, ht, _⟩, _, hd⟩ :=
    UI.keystrokes_chain ts (ui.keystroke t0) t0 ui.nextTimerId h1 h2 h3 hchain
  have hk : ui.keystrokes (t0 :: ts) = (ui.keystroke t0).keystrokes ts := rfl
  have hdis : (ui.keystrokes (t0 :: ts)).dispatched =
      ui.dispatched ++ List.replicate (ts.length + 1) "userTyping" := by
    rw [hk, hd, h4, List.append_assoc]
    congr 1
  have htim : (ui.keystrokes (t0 :: ts)).timers =
      [(id2, lastTime t0 ts + TYPING_TIMEOUT)] := by
    rw [hk]
    exact ht
  refine ⟨hdis, ?_, ?_⟩
  · simp [UI.advance, hdis, htim, hT]
  · simp [UI.advance, htim, hT]

/-- C25, at a concrete input: three keystrokes at times 0, 400 and 900, then time 1900. -/
theorem C25_typing_burst_witness :
    List.Chain (fun x y => x ≤ y ∧ y < x + TYPING_TIMEOUT) 0 [400, 900] ∧
    lastTime 0 [400, 900] + TYPING_TIMEOUT ≤ 1900 ∧
    (((({ } : UI).keystrokes [0, 400, 900]).advance 1900).dispatched =
      [] ++ List.replicate (2 + 1) "userTyping" ++ ["userStopTyping"]) :=
  ⟨List.Chain.cons ⟨by decide, by decide⟩
      (List.Chain.cons ⟨by decide, by decide⟩ List.Chain.nil),
    by decide,
    (C25_typing_burst { } 0 [400, 900] 1900 rfl (by decide)
      (List.Chain.cons ⟨by decide, by decide⟩
        (List.Chain.cons ⟨by decide, by decide⟩ List.Chain.nil))
      (by decide)).2.1⟩

/-! ## Text helper -/

theorem Utils.truncateText_of_three_le (text : String) (maxLength : Int) (h3 : 3 ≤ maxLength) :
    ((Utils.truncateText text maxLength).length : Int) ≤ maxLength := by
  unfold Utils.truncateText
  by_cases ht : truthy text = true
  · simp only [ht, Bool.not_true, Bool.false_eq_true, if_false]
    by_cases hl : (text.length : Int) ≤ maxLength
    · rw [if_pos hl]
      exact hl
    · rw [if_neg hl]
      rw [String.length_append]
      have h1 : (String.mk (text.data.take (maxLength - 3).toNat)).length =
          min (maxLength - 3).toNat text.data.length := by
        show (text.data.take (maxLength - 3).toNat).length = _
        exact List.length_take _ _
      have h2 : ("...").length = 3 := by decide
      have h4 : text.length = text.data.length := rfl
      rw [h1, h2]
      omega
  · have ht2 : truthy text = false := by simpa using ht
    simp only [ht2, Bool.not_false, if_true]
    have h0 : ("" : String).length = 0 := by decide
    rw [h0]
    omega

/-- C26 (code at the failing input): truncateText of the four-character text abcd with
maxLength 2 returns the three dots, of length 3, which exceeds maxLength; with maxLength 0
it returns the three dots as well. -/
theorem C26_truncate_exceeds_small_max :
    Utils.truncateText "abcd" 2 = "..." ∧
    (Utils.truncateText "abcd" 2).length = 3 ∧
    ¬ ((Utils.truncateText "abcd" 2).length : Int) ≤ 2 ∧
    Utils.truncateText "abcd" 0 = "..." := by
  decide

end PlusRom
